import Mathlib

/-!
Verification of `ERA5_functions.py` (python-functions-for-atmo-sci).

A shallow embedding of the coordinate-resolution, file-span location and
hyperslab-stitching code.  Data files are in-memory records of coordinate
axes plus one variable's nested-list array; machine floats become exact
rationals; python exceptions become `Except String`; a python
`UnboundLocalError` / `NameError` on a variable that was never assigned is
modelled by an explicit error value.  `l[a:b]` on nonnegative indices is
`(l.drop a).take (b - a)`, matching python's clamping slice semantics.
-/

namespace ERA5

/-- A horizontal grid: latitude rows of longitude entries. -/
abbrev Grid2 := List (List ℚ)

/-- A rank-3 array (time × lat × lon, or level × lat × lon). -/
abbrev Arr3 := List (List (List ℚ))

/-- A rank-4 array (time × level × lat × lon). -/
abbrev Arr4 := List (List (List (List ℚ)))

/-- `|x - y|`, written as an explicit case split on the sign so that
concrete instances evaluate inside the kernel. -/
def aDist (x y : ℚ) : ℚ := if x - y < 0 then y - x else x - y

/-- Modelled from the spec: `misc_functions.k_closest` (module not under
`src/`) with count 1 — "given a monotonic or near-monotonic numeric
sequence, a target value, and a count k, returns the k indices of sequence
elements nearest the target, ties broken by first occurrence".  This is the
index of the element nearest the target, earliest index on ties. -/
def nearestIdx : List ℚ → ℚ → Nat
  | [], _ => 0
  | [_], _ => 0
  | x :: y :: rest, t =>
    if aDist ((y :: rest).getD (nearestIdx (y :: rest) t) 0) t < aDist x t
    then nearestIdx (y :: rest) t + 1 else 0

/-- Modelled from the spec: `misc_functions.k_closest` with count 2 — the
two indices of the two sequence elements nearest the target (ties broken by
first occurrence).  Every caller slices with the pair and hands the matching
time values to `scipy.interpolate.interp1d`, so the pair is returned in
ascending index order. -/
def kClosest2 (seq : List ℚ) (t : ℚ) : List Nat :=
  let i := nearestIdx seq t
  let j0 := nearestIdx (seq.eraseIdx i) t
  let j := if j0 < i then j0 else j0 + 1
  if i ≤ j then [i, j] else [j, i]

/-- A single-level (surface) ERA5 file: a time axis, horizontal coordinate
axes, and one named variable's data as a time × lat × lon array.  The
netCDF `Dataset` handle of the source is the record itself; the variable
name lookup is fixed to the one stored array. -/
structure E5File2D where
  times : List ℚ
  lat : List ℚ
  lon : List ℚ
  var : Arr3
  deriving DecidableEq

/-- A pressure-level ERA5 file: time, level and horizontal axes, and one
variable's data as a time × level × lat × lon array. -/
structure E5File4D where
  times : List ℚ
  lev : List ℚ
  lat : List ℚ
  lon : List ℚ
  var : Arr4
  deriving DecidableEq

instance : Inhabited E5File2D := ⟨⟨[], [], [], []⟩⟩

instance : Inhabited E5File4D := ⟨⟨[], [], [], [], []⟩⟩

/-- `fh.variables["time"][0]` — first time value of a file. -/
def E5File2D.t0 (f : E5File2D) : ℚ := f.times.headI

/-- `fh.variables["time"][-1]` — last time value of a file. -/
def E5File2D.tN (f : E5File2D) : ℚ := f.times.getLastI

/-- `fh.variables["time"][0]` — first time value of a file. -/
def E5File4D.t0 (f : E5File4D) : ℚ := f.times.headI

/-- `fh.variables["time"][-1]` — last time value of a file. -/
def E5File4D.tN (f : E5File4D) : ℚ := f.times.getLastI

/-! ### The 2-D (single-level) family -/

/-- The file-search loop of `get_E5_ss_fiti` (source lines 776-779):
`for fi in allfiles: fh = Dataset(fi); if t0 <= ctime <= tN: break` — the
first file whose time range contains the time, or, because the loop
variable survives the loop, the last file when none does.  `none` only for
an empty file list. -/
def locFile : List E5File2D → ℚ → Option E5File2D
  | [], _ => none
  | [f], _ => some f
  | f :: g :: rest, t =>
    if f.t0 ≤ t ∧ t ≤ f.tN then some f else locFile (g :: rest) t

/-- `get_E5_ss_fiti` (source lines 755-788).  The query time is taken
already converted to the files' time units (`time_functions.time_since` is
an external collaborator).  The function contains no raise statement: a
time outside the archive's range falls through to the last file examined
and is resolved by nearest-neighbour search there.  The python scalar
`timi = times.index(ctime)` of the exact-match branch is modelled as a
one-element list so both branches have one type. -/
def get_E5_ss_fiti (allfiles : List E5File2D) (ctime : ℚ) :
    Option (E5File2D × List Nat × List ℚ × ℚ) :=
  match locFile allfiles ctime with
  | none => none
  | some fh =>
    if ctime ∈ fh.times then some (fh, [fh.times.indexOf ctime], fh.times, ctime)
    else some (fh, kClosest2 fh.times ctime, fh.times, ctime)

/-- The file-selection loop of `get_E5_ss_2D_fiti` (source lines 908-949):
files are visited in order with a counter `it`; a time before the first
file's range or after the last file's range raises; a file containing the
time, or a gap between the remembered previous file (`ltinpf`, `pf`) and
the current file, ends the loop with one or two file handles; otherwise the
current file is remembered and the loop moves on.  Falling off the end of
the list leaves python's `files` unbound — a `NameError` at the code after
the loop. -/
def loc2D : List E5File2D → ℚ → Nat → Nat → Option (ℚ × E5File2D) →
    Except String (List E5File2D)
  | [], _, _, _, _ => .error "NameError: name files is not defined"
  | f :: rest, ctime, it, n, prev =>
    if ctime < f.t0 ∧ it = 0 then
      .error "Time is before range of times in files"
    else if f.tN < ctime ∧ it = n - 1 then
      .error "Time is after range of times in files"
    else if f.t0 ≤ ctime ∧ ctime ≤ f.tN then
      .ok [f]
    else
      match prev with
      | some (ltinpf, pf) =>
        if ltinpf ≤ ctime ∧ ctime ≤ f.t0 then .ok [pf, f]
        else loc2D rest ctime (it + 1) n (some (f.tN, f))
      | none => loc2D rest ctime (it + 1) n (some (f.tN, f))

/-- `get_E5_ss_2D_fiti` (source lines 885-974): run the file-selection
loop, then classify.  One file and an exact time hit: the exact index by
list membership (`times.index`), and the python scalar
`times = times[timi[0]]` modelled as a one-element list.  One file, no
exact hit: the two nearest indices and their times.  Two files: the last
index of the first file and index 0 of the second, with the two boundary
times. -/
def get_E5_ss_2D_fiti (allfiles : List E5File2D) (ctime : ℚ) :
    Except String (List E5File2D × List Nat × List ℚ × ℚ) :=
  match loc2D allfiles ctime 0 allfiles.length none with
  | .error e => .error e
  | .ok files =>
    if files.length = 1 then
      let times := (files.headI).times
      if ctime ∈ times then
        .ok (files, [times.indexOf ctime], [times.getD (times.indexOf ctime) 0], ctime)
      else
        let timi := kClosest2 times ctime
        .ok (files, timi, [times.getD timi.headI 0, times.getD timi.getLastI 0], ctime)
    else
      .ok (files, [(files.headI).times.length - 1, 0],
           [(files.headI).tN, (files.getLastI).t0], ctime)

/-- `if lon < 0: lon = lon + 360` — normalisation of a longitude bound to
[0, 360). -/
def normLon (x : ℚ) : ℚ := if x < 0 then x + 360 else x

/-- The clamped latitude window of the centre-window resolvers (source
lines 1005-1008): `(clatm, clatp) = (max(clat - hda, -90), min(clat + hda, 90))`,
written with the source's one-sided saturating ifs. -/
def clatWindow (clat hda : ℚ) : ℚ × ℚ :=
  (if clat - hda < -90 then (-90 : ℚ) else clat - hda,
   if clat + hda > 90 then (90 : ℚ) else clat + hda)

/-- The wrapped longitude window of `get_E5_ss_2D_coords` (source lines
1000-1016): normalise the centre to [0, 360), wrap each bound modulo 360,
then re-wrap a bound lying past half a grid step beyond the axis' last
value (the "deal with cyclical lons" step). -/
def clonWindow (fh : E5File2D) (clon hda : ℚ) : ℚ × ℚ :=
  let clon' := normLon clon
  let clonp1 := if clon' + hda > 360 then clon' + hda - 360 else clon' + hda
  let clonm1 := if clon' - hda < 0 then clon' - hda + 360 else clon' - hda
  let seam := fh.lon.getLastI + (fh.lon.getD 1 0 - fh.lon.getD 0 0) / 2
  (if clonm1 > seam then clonm1 - 360 else clonm1,
   if clonp1 > seam then clonp1 - 360 else clonp1)

/-- `get_E5_ss_2D_coords` (source lines 980-1033): resolve the clamped and
wrapped centre-window bounds to indices by nearest-neighbour search and
slice the coordinate vectors — a wraparound longitude window concatenates
the two raw axis segments without sign conversion.  Equal longitude
indices leave python's `lons` unbound (`UnboundLocalError`). -/
def get_E5_ss_2D_coords (fh : E5File2D) (clon clat hda : ℚ) :
    Except String ((Nat × Nat) × (Nat × Nat) × List ℚ × List ℚ) :=
  let lati : Nat × Nat := (nearestIdx fh.lat (clatWindow clat hda).2,
                           nearestIdx fh.lat (clatWindow clat hda).1)
  let loni : Nat × Nat := (nearestIdx fh.lon (clonWindow fh clon hda).1,
                           nearestIdx fh.lon (clonWindow fh clon hda).2)
  let lats := (fh.lat.drop lati.1).take (lati.2 + 1 - lati.1)
  if loni.2 > loni.1 then
    .ok (loni, lati, (fh.lon.drop loni.1).take (loni.2 + 1 - loni.1), lats)
  else if loni.1 > loni.2 then
    .ok (loni, lati, fh.lon.drop loni.1 ++ fh.lon.take (loni.2 + 1), lats)
  else .error "UnboundLocalError: lons referenced before assignment"

/-- `arr[lati0:lati1+1, loni0:loni1+1]` — rectangular horizontal window of
one time slice. -/
def subgrid2N (g : Grid2) (lati loni : Nat × Nat) : Grid2 :=
  ((g.drop lati.1).take (lati.2 + 1 - lati.1)).map
    (fun r => (r.drop loni.1).take (loni.2 + 1 - loni.1))

/-- `np.concatenate([arr[lati0:lati1+1, loni0:], arr[lati0:lati1+1, 0:loni1+1]], axis=1)`
— wraparound horizontal window: per latitude row, the tail from the start
index followed by the head through the end index. -/
def subgrid2W (g : Grid2) (lati loni : Nat × Nat) : Grid2 :=
  ((g.drop lati.1).take (lati.2 + 1 - lati.1)).map
    (fun r => r.drop loni.1 ++ r.take (loni.2 + 1))

/-- Pointwise combination of two lat × lon grids (numpy elementwise
arithmetic on arrays of equal shape). -/
def map2Grid (op : ℚ → ℚ → ℚ) (a b : Grid2) : Grid2 :=
  List.zipWith (fun ra rb => List.zipWith op ra rb) a b

/-- `scipy.interpolate.interp1d(x, y, axis=0)(c)` under the default
options — `kind='linear'`; `assume_sorted=False`, so the sample points are
put in ascending order first; `bounds_error=True`, so evaluating outside
the sample interval raises — specialised to two sample points, which is
what every call site supplies (`times` from the locator has two entries in
the interpolating branches).  A sample count along axis 0 different from
`len(x)` raises; coincident sample points would give numpy nan, modelled as
an error. -/
def interp1dAt (xs : List ℚ) (ys : Arr3) (c : ℚ) : Except String Grid2 :=
  if xs.length = 2 ∧ ys.length = 2 then
    let lo := if xs.headI ≤ xs.getLastI then xs.headI else xs.getLastI
    let hi := if xs.headI ≤ xs.getLastI then xs.getLastI else xs.headI
    let ylo := if xs.headI ≤ xs.getLastI then ys.headI else ys.getLastI
    let yhi := if xs.headI ≤ xs.getLastI then ys.getLastI else ys.headI
    if c < lo then
      .error "ValueError: A value in x_new is below the interpolation range."
    else if hi < c then
      .error "ValueError: A value in x_new is above the interpolation range."
    else if lo = hi then .error "nan: coincident interpolation sample points"
    else .ok (map2Grid (fun a b => a + (b - a) * ((c - lo) / (hi - lo))) ylo yhi)
  else .error "ValueError: x and y arrays must be equal in length along interpolation axis."

/-- `get_E5_ss_2D_var` (source lines 1041-1123).  One file and one time
index: the stored slice at that index (the fancy index `[timi, ...]` with
the locator's one-element list plus `np.squeeze` select exactly that
slice; numpy's squeeze would also flatten a single-row or single-column
window, which only reshapes without changing entries).  One file and two
indices: the sliced time range fed to linear time interpolation.  Two
files and two indices: one slice from each file fed to the interpolation.
Anything else raises.  Equal longitude indices match neither the
non-wraparound (`loni[1] > loni[0]`) nor the wraparound
(`loni[0] > loni[1]`) read, leaving python's local unbound. -/
def get_E5_ss_2D_var (fh : List E5File2D) (timi : List Nat)
    (loni lati : Nat × Nat) (times : List ℚ) (ctime : ℚ) :
    Except String Grid2 :=
  if fh.length = 1 ∧ timi.length = 1 then
    if loni.2 > loni.1 then
      .ok (subgrid2N ((fh.headI).var.getD timi.headI []) lati loni)
    else if loni.1 > loni.2 then
      .ok (subgrid2W ((fh.headI).var.getD timi.headI []) lati loni)
    else .error "UnboundLocalError: varss referenced before assignment"
  else if fh.length = 1 ∧ timi.length = 2 then
    if loni.2 > loni.1 then
      interp1dAt times
        ((((fh.headI).var.drop timi.headI).take (timi.getLastI + 1 - timi.headI)).map
          (fun g => subgrid2N g lati loni)) ctime
    else if loni.1 > loni.2 then
      interp1dAt times
        ((((fh.headI).var.drop timi.headI).take (timi.getLastI + 1 - timi.headI)).map
          (fun g => subgrid2W g lati loni)) ctime
    else .error "UnboundLocalError: varall referenced before assignment"
  else if fh.length = 2 ∧ timi.length = 2 then
    if loni.2 > loni.1 then
      interp1dAt times
        [subgrid2N ((fh.headI).var.getD timi.headI []) lati loni,
         subgrid2N ((fh.getLastI).var.getD timi.getLastI []) lati loni] ctime
    else if loni.1 > loni.2 then
      interp1dAt times
        [subgrid2W ((fh.headI).var.getD timi.headI []) lati loni,
         subgrid2W ((fh.getLastI).var.getD timi.getLastI []) lati loni] ctime
    else .error "UnboundLocalError: varall referenced before assignment"
  else .error "Something went wrong in selecting times"


/-! ### The 4-D (pressure-level) family -/

/-- `get_E5_ss_4D_coords` (source lines 213-259): normalise negative
longitudes to [0, 360), resolve the latitude indices as
`[k_closest(lat, lat2), k_closest(lat, lat1)]` (upper bound first — the
ERA5 latitude axis is stored descending) and the longitude indices as
`[k_closest(lon, lon1), k_closest(lon, lon2)]`, then slice: a
non-wraparound window (`loni[0] < loni[1]`) takes both coordinate vectors
inclusively; a wraparound window (`loni[0] > loni[1]`) concatenates the
tail segment — with every value not below 180 shifted to signed degrees by
subtracting 360 — and the head segment unconverted.  Equal longitude
indices match neither branch and leave python's `lats`/`lons` unbound.
The `np.squeeze` around the non-wraparound coordinate lists only reshapes
a one-element list to a scalar and is modelled as the list itself. -/
def get_E5_ss_4D_coords (fh : E5File4D) (lat1 lat2 lon1 lon2 : ℚ) :
    Except String ((Nat × Nat) × (Nat × Nat) × List ℚ × List ℚ) :=
  let lati : Nat × Nat := (nearestIdx fh.lat lat2, nearestIdx fh.lat lat1)
  let loni : Nat × Nat := (nearestIdx fh.lon (normLon lon1),
                           nearestIdx fh.lon (normLon lon2))
  if loni.1 < loni.2 then
    .ok (lati, loni,
      (fh.lat.drop lati.1).take (lati.2 + 1 - lati.1),
      (fh.lon.drop loni.1).take (loni.2 + 1 - loni.1))
  else if loni.2 < loni.1 then
    .ok (lati, loni,
      (fh.lat.drop lati.1).take (lati.2 + 1 - lati.1),
      ((fh.lon.drop loni.1).map (fun l => if l < 180 then l else l - 360))
        ++ fh.lon.take (loni.2 + 1))
  else .error "UnboundLocalError: lats referenced before assignment"

/-- `get_E5_ss_4D_levels` (source lines 267-294): the indices of the two
levels nearest the bounds and the coordinate slice
`lev[levi[0]:levi[1]+1]` between them (inclusive upper bound). -/
def get_E5_ss_4D_levels (fh : E5File4D) (lev1 lev2 : ℚ) :
    (Nat × Nat) × List ℚ :=
  let levi : Nat × Nat := (nearestIdx fh.lev lev1, nearestIdx fh.lev lev2)
  (levi, (fh.lev.drop levi.1).take (levi.2 + 1 - levi.1))

/-- The loop state of `get_E5_ss_4D_fiti`: the `append` flag, the
collected file list, and the python locals `timi1`, `timi2`, `times`,
which start unbound (`none`). -/
structure Fiti4State where
  app : Bool
  ssfiles : List E5File4D
  timi1 : Option Nat
  timi2 : Option Nat
  times : Option (List ℚ)
  deriving DecidableEq

/-- The file loop of `get_E5_ss_4D_fiti` (source lines 137-201): per file,
either both times are inside (slice between the two nearest indices and
stop), only the first time is inside (slice from its nearest index on and
set the `append` flag), the second time is inside (extend with the head
slice through its nearest index and stop — a `NameError` when `times` was
never assigned), or, with the flag set, a middle file extends `times` with
the whole axis. -/
def fiti4Loop : List E5File4D → ℚ → ℚ → Fiti4State → Except String Fiti4State
  | [], _, _, s => .ok s
  | f :: rest, t1, t2, s =>
    if (f.t0 ≤ t1 ∧ t1 ≤ f.tN) ∧ (f.t0 ≤ t2 ∧ t2 ≤ f.tN) then
      let i1 := nearestIdx f.times t1
      let i2 := nearestIdx f.times t2
      .ok { s with ssfiles := s.ssfiles ++ [f]
                   timi1 := some i1
                   timi2 := some i2
                   times := some ((f.times.drop i1).take (i2 + 1 - i1)) }
    else if (f.t0 ≤ t1 ∧ t1 ≤ f.tN) ∧ ¬(f.t0 ≤ t2 ∧ t2 ≤ f.tN) then
      let i1 := nearestIdx f.times t1
      fiti4Loop rest t1 t2
        { app := true
          ssfiles := s.ssfiles ++ [f]
          timi1 := some i1
          timi2 := s.timi2
          times := some (f.times.drop i1) }
    else if f.t0 ≤ t2 ∧ t2 ≤ f.tN then
      let i2 := nearestIdx f.times t2
      match s.times with
      | none => .error "NameError: name times is not defined"
      | some tl =>
        .ok { s with ssfiles := s.ssfiles ++ [f]
                     timi2 := some i2
                     times := some (tl ++ f.times.take (i2 + 1)) }
    else if s.app then
      match s.times with
      | none => .error "NameError: name times is not defined"
      | some tl =>
        fiti4Loop rest t1 t2
          { s with ssfiles := s.ssfiles ++ [f]
                   times := some (tl ++ f.times) }
    else fiti4Loop rest t1 t2 s

/-- `get_E5_ss_4D_fiti` (source lines 107-207).  The two query times are
taken already converted to file units (`time_since` is external; the
conversion uses the first file, so an empty archive fails on
`allfiles[0]`).  After the loop, `np.squeeze([timi1, timi2])` reads both
locals — a `NameError` when either was never assigned, which is how an
out-of-range query surfaces here. -/
def get_E5_ss_4D_fiti (allfiles : List E5File4D) (time1 time2 : ℚ) :
    Except String (List E5File4D × (Nat × Nat) × List ℚ) :=
  if allfiles.isEmpty then .error "IndexError: list index out of range"
  else
    match fiti4Loop allfiles time1 time2 ⟨false, [], none, none, none⟩ with
    | .error e => .error e
    | .ok s =>
      match s.timi1, s.timi2, s.times with
      | some i1, some i2, some tl => .ok (s.ssfiles, (i1, i2), tl)
      | _, _, _ => .error "NameError: name timi1 is not defined"

/-- One longitude row of a hyperslab read, `row[loni0:loni1+1]`, for a
window that does not cross the seam. -/
def rowN (loni : Nat × Nat) (r : List ℚ) : List ℚ :=
  (r.drop loni.1).take (loni.2 + 1 - loni.1)

/-- `np.concatenate((row[loni0:], row[0:loni1+1]))` — one longitude row of
a wraparound read. -/
def rowW (loni : Nat × Nat) (r : List ℚ) : List ℚ :=
  r.drop loni.1 ++ r.take (loni.2 + 1)

/-- The level/lat/lon part of one time slab of a 4-D read:
`[levi[0]:levi[1], lati[0]:lati[1]+1, <longitude window>]`.  The level
slice's upper bound `levi[1]` is exclusive in the source (unlike the
latitude and longitude bounds). -/
def sliceSpace (levi lati loni : Nat × Nat) (wrap : Bool) (slab : Arr3) : Arr3 :=
  ((slab.drop levi.1).take (levi.2 - levi.1)).map
    (fun g => ((g.drop lati.1).take (lati.2 + 1 - lati.1)).map
      (fun r => if wrap then rowW loni r else rowN loni r))

/-- The body of one file's read in `get_E5_ss_4D_var` over a given time
slice of its array, for a fixed wraparound choice: the level/lat/lon
subsetting applied to every time slab of the slice. -/
def read4t (wrap : Bool) (levi lati loni : Nat × Nat) (tslab : List Arr3) : Arr4 :=
  tslab.map (sliceSpace levi lati loni wrap)

/-- One file's read in `get_E5_ss_4D_var` over a given time slice of its
array, selecting the non-wraparound (`loni[0] < loni[1]`) or wraparound
(`loni[0] > loni[1]`, two reads concatenated along the longitude axis)
branch; equal indices match neither branch and leave python's local
unbound (`none`). -/
def read4 (tslab : List Arr3) (levi lati loni : Nat × Nat) : Option (List Arr3) :=
  if loni.1 < loni.2 then some (read4t false levi lati loni tslab)
  else if loni.2 < loni.1 then some (read4t true levi lati loni tslab)
  else none

/-- Modelled from the spec: "Across multiple FileSpans, results are
concatenated along the time axis in file order.  The first span
contributes from its resolved start index to its end ...; the last span
contributes from index 0 to its resolved end index; middle spans
contribute their full time extent" — the expected contributions of the
spans after the first, in file order. -/
def specStitchRest (timi levi lati loni : Nat × Nat) (wrap : Bool) :
    List E5File4D → Arr4
  | [] => []
  | [f] => read4t wrap levi lati loni (f.var.take (timi.2 + 1))
  | f :: g :: rest =>
    read4t wrap levi lati loni f.var
      ++ specStitchRest timi levi lati loni wrap (g :: rest)

/-- Whether a rank-4 array (rectangular, as all reads here are) has an
axis of extent one — exactly when `np.squeeze` would drop an axis.  The
probes read the shape the way numpy does on a rectangular nested list. -/
def hasUnitAxis4 (a : Arr4) : Bool :=
  a.length == 1 || a.headI.length == 1 || a.headI.headI.length == 1
    || a.headI.headI.headI.length == 1

/-- The file loop of `get_E5_ss_4D_var` (source lines 352-416): `c` is the
python counter, `n = len(files)`, `acc` the accumulated `varss` (python
unbound ~ `none`).  The first file (`c == 0`) starts the accumulator with
its `[timi[0]:, ...]` read; the last file (`c == len(files)-1`, `c ≠ 0`)
appends its `[0:timi[1]+1, ...]` read along the time axis; a middle file
appends its full time extent, after which the source wraps the
concatenation in `np.squeeze` — when some axis has extent one the squeeze
drops it and the next iteration's `np.concatenate(..., axis=0)` fails on
mismatched ranks, so that case is modelled as the error at the middle
step (the source can never return normally from it). -/
def var4Loop (timi levi lati loni : Nat × Nat) :
    List E5File4D → Nat → Nat → Option Arr4 → Except String (Option Arr4)
  | [], _, _, acc => .ok acc
  | f :: rest, c, n, acc =>
    if c = 0 then
      var4Loop timi levi lati loni rest (c + 1) n
        (read4 (f.var.drop timi.1) levi lati loni)
    else if c = n - 1 then
      match acc, read4 (f.var.take (timi.2 + 1)) levi lati loni with
      | some v, some v3 => var4Loop timi levi lati loni rest (c + 1) n (some (v ++ v3))
      | _, _ => .error "NameError: undefined hyperslab in time concatenation"
    else
      match acc, read4 f.var levi lati loni with
      | some v, some v3 =>
        if hasUnitAxis4 (v ++ v3) then
          .error "ValueError: np.squeeze dropped an axis and the next concatenate fails"
        else var4Loop timi levi lati loni rest (c + 1) n (some (v ++ v3))
      | _, _ => .error "NameError: undefined hyperslab in time concatenation"

/-- `get_E5_ss_4D_var` (source lines 333-419): run the file loop; python
returns the accumulated `varss`, which is a `NameError` when it was never
assigned (empty file list, or a single file whose longitude indices are
equal). -/
def get_E5_ss_4D_var (files : List E5File4D) (timi levi lati loni : Nat × Nat) :
    Except String Arr4 :=
  match var4Loop timi levi lati loni files 0 files.length none with
  | .error e => .error e
  | .ok none => .error "NameError: name varss is not defined"
  | .ok (some v) => .ok v

/-- `arr[lati0:lati1+1, loni0:]` — the pre-seam longitude piece of a
horizontal window. -/
def subgrid2A (g : Grid2) (lati loni : Nat × Nat) : Grid2 :=
  ((g.drop lati.1).take (lati.2 + 1 - lati.1)).map (fun r => r.drop loni.1)

/-- `arr[lati0:lati1+1, 0:loni1+1]` — the post-seam longitude piece of a
horizontal window. -/
def subgrid2B (g : Grid2) (lati loni : Nat × Nat) : Grid2 :=
  ((g.drop lati.1).take (lati.2 + 1 - lati.1)).map (fun r => r.take (loni.2 + 1))

/-- Elementwise difference of two equally-shaped time × lat × lon arrays
(numpy array subtraction). -/
def sub3 (a b : Arr3) : Arr3 :=
  List.zipWith (fun x y => map2Grid (fun p q => p - q) x y) a b

/-- `np.concatenate(-, axis=2)` on two time × lat × lon arrays: per time
slab, per latitude row, append the longitude entries. -/
def cat3lon (a b : Arr3) : Arr3 :=
  List.zipWith (fun x y => List.zipWith (fun r s => r ++ s) x y) a b

/-- Whether a rank-3 array (rectangular, as all reads here are) has an
axis of extent one — exactly when `np.squeeze` would drop an axis. -/
def hasUnitAxis3 (a : Arr3) : Bool :=
  a.length == 1 || a.headI.length == 1 || a.headI.headI.length == 1

/-- One file's contribution in `get_E5_ss_4D_levdiffvar` over a given time
slice: the read at level index `levi[0]` minus the read at level index
`levi[1]` — a single level index selects a lat × lon grid per time slab —
with the wraparound branch subtracting each longitude piece first and then
concatenating the two differences along the longitude axis, exactly as the
source does. -/
def readDiff (levi lati loni : Nat × Nat) (tslab : List Arr3) : Option Arr3 :=
  if loni.1 < loni.2 then
    some (sub3 (tslab.map (fun s => subgrid2N (s.getD levi.1 []) lati loni))
               (tslab.map (fun s => subgrid2N (s.getD levi.2 []) lati loni)))
  else if loni.2 < loni.1 then
    some (cat3lon
      (sub3 (tslab.map (fun s => subgrid2A (s.getD levi.1 []) lati loni))
            (tslab.map (fun s => subgrid2A (s.getD levi.2 []) lati loni)))
      (sub3 (tslab.map (fun s => subgrid2B (s.getD levi.1 []) lati loni))
            (tslab.map (fun s => subgrid2B (s.getD levi.2 []) lati loni))))
  else none

/-- The file loop shared by the rank-3-result extractions over the 4-D
archive: the same first/middle/last time-axis stitching as `var4Loop`
(source lines 544-628 repeat it verbatim for the level-difference mode),
parameterised by the per-file read. -/
def loop3 (rd : List Arr3 → Option Arr3) (timi : Nat × Nat) :
    List E5File4D → Nat → Nat → Option Arr3 → Except String (Option Arr3)
  | [], _, _, acc => .ok acc
  | f :: rest, c, n, acc =>
    if c = 0 then loop3 rd timi rest (c + 1) n (rd (f.var.drop timi.1))
    else if c = n - 1 then
      match acc, rd (f.var.take (timi.2 + 1)) with
      | some v, some v3 => loop3 rd timi rest (c + 1) n (some (v ++ v3))
      | _, _ => .error "NameError: undefined hyperslab in time concatenation"
    else
      match acc, rd f.var with
      | some v, some v3 =>
        if hasUnitAxis3 (v ++ v3) then
          .error "ValueError: np.squeeze dropped an axis and the next concatenate fails"
        else loop3 rd timi rest (c + 1) n (some (v ++ v3))
      | _, _ => .error "NameError: undefined hyperslab in time concatenation"

/-- `get_E5_ss_4D_levdiffvar` (source lines 524-628): the level-difference
extraction mode — per file, the single-level read at `levi[0]` minus the
one at `levi[1]`, stitched across files and the longitude seam exactly
like the raw mode. -/
def get_E5_ss_4D_levdiffvar (files : List E5File4D) (timi levi lati loni : Nat × Nat) :
    Except String Arr3 :=
  match loop3 (readDiff levi lati loni) timi files 0 files.length none with
  | .error e => .error e
  | .ok none => .error "NameError: name varss is not defined"
  | .ok (some v) => .ok v

/-- Modelled from the spec: the reference "raw read" of the
level-difference test — "result equals read(level=L1) − read(level=L2)
elementwise, verified against two independent raw reads" — a raw read at
one fixed level index, stitched across files and the longitude seam with
the same time-axis logic as the extraction modes. -/
def readFix (lv : Nat) (lati loni : Nat × Nat) (tslab : List Arr3) : Option Arr3 :=
  if loni.1 < loni.2 then
    some (tslab.map (fun s => subgrid2N (s.getD lv []) lati loni))
  else if loni.2 < loni.1 then
    some (cat3lon (tslab.map (fun s => subgrid2A (s.getD lv []) lati loni))
                  (tslab.map (fun s => subgrid2B (s.getD lv []) lati loni)))
  else none

/-- Modelled from the spec: the stitched raw read at one fixed level
index (the `read(level=L)` of the level-difference test). -/
def rawFixRead (files : List E5File4D) (timi : Nat × Nat) (lv : Nat)
    (lati loni : Nat × Nat) : Except String Arr3 :=
  match loop3 (readFix lv lati loni) timi files 0 files.length none with
  | .error e => .error e
  | .ok none => .error "NameError: name varss is not defined"
  | .ok (some v) => .ok v

/-- `get_E5_ss_4D` (source lines 63-99): compose the locator, the
coordinate and level resolvers — both reading the first located file —
and the reader.  File discovery (`glob` plus lexicographic sort) happens
outside the model: the ordered file list is the input, and the two query
times are taken already converted to file units. -/
def get_E5_ss_4D (allfiles : List E5File4D) (time1 time2 lev1 lev2 lat1 lat2 lon1 lon2 : ℚ) :
    Except String (Arr4 × List ℚ × List ℚ × List ℚ × List ℚ) :=
  match get_E5_ss_4D_fiti allfiles time1 time2 with
  | .error e => .error e
  | .ok (files, timi, times) =>
    match get_E5_ss_4D_coords files.headI lat1 lat2 lon1 lon2 with
    | .error e => .error e
    | .ok (lati, loni, lats, lons) =>
      let levres := get_E5_ss_4D_levels files.headI lev1 lev2
      match get_E5_ss_4D_var files timi levres.1 lati loni with
      | .error e => .error e
      | .ok v => .ok (v, times, levres.2, lats, lons)

/-! ## Theorems -/

theorem aDist_eq_abs (x y : ℚ) : aDist x y = |x - y| := by
  unfold aDist
  split
  next h => rw [abs_of_neg h]; ring
  next h => rw [abs_of_nonneg (by linarith)]

theorem aDist_neg_neg (x y : ℚ) : aDist (-x) (-y) = aDist x y := by
  rw [aDist_eq_abs, aDist_eq_abs]
  have h : -x - -y = -(x - y) := by ring
  rw [h, abs_neg]

/-! ### Properties of the nearest-index search -/

theorem nearestIdx_lt_length (seq : List ℚ) (t : ℚ) (h : seq ≠ []) :
    nearestIdx seq t < seq.length := by
  induction seq with
  | nil => simp at h
  | cons x rest ih =>
    cases rest with
    | nil => simp [nearestIdx]
    | cons y rest' =>
      rw [nearestIdx]
      split
      · have := ih (by simp)
        simpa using Nat.succ_lt_succ this
      · simp

theorem nearestIdx_min (seq : List ℚ) (t : ℚ) :
    ∀ k, k < seq.length →
      aDist (seq.getD (nearestIdx seq t) 0) t ≤ aDist (seq.getD k 0) t := by
  induction seq with
  | nil => intro k hk; simp at hk
  | cons x rest ih =>
    cases rest with
    | nil =>
      intro k hk
      simp only [List.length_cons, List.length_nil] at hk
      have hk0 : k = 0 := by omega
      subst hk0
      simp [nearestIdx]
    | cons y rest' =>
      intro k hk
      rw [nearestIdx]
      split
      next hlt =>
        rcases k with _ | k
        · simpa using hlt.le
        · simpa using ih k (by simpa using hk)
      next hge =>
        push_neg at hge
        rcases k with _ | k
        · simp
        · calc aDist ((x :: y :: rest').getD 0 0) t
              = aDist x t := by simp
            _ ≤ aDist ((y :: rest').getD (nearestIdx (y :: rest') t) 0) t := hge
            _ ≤ aDist ((y :: rest').getD k 0) t := ih k (by simpa using hk)
            _ = aDist ((x :: y :: rest').getD (k + 1) 0) t := by simp

theorem nearestIdx_first (seq : List ℚ) (t : ℚ) :
    ∀ k, k < nearestIdx seq t →
      aDist (seq.getD (nearestIdx seq t) 0) t < aDist (seq.getD k 0) t := by
  induction seq with
  | nil => intro k hk; simp [nearestIdx] at hk
  | cons x rest ih =>
    cases rest with
    | nil => intro k hk; simp [nearestIdx] at hk
    | cons y rest' =>
      intro k hk
      rw [nearestIdx] at hk ⊢
      by_cases hc : aDist ((y :: rest').getD (nearestIdx (y :: rest') t) 0) t < aDist x t
      · rw [if_pos hc] at hk ⊢
        rcases k with _ | k
        · simpa using hc
        · have hk' : k < nearestIdx (y :: rest') t := by omega
          simpa using ih k hk'
      · rw [if_neg hc] at hk
        exact absurd hk (by omega)

/-- If one position is strictly nearer the target than every other valid
position, the nearest-index search returns it. -/
theorem nearestIdx_eq_of_strict (seq : List ℚ) (t : ℚ) (p : Nat)
    (hp : p < seq.length)
    (h : ∀ k, k < seq.length → k ≠ p →
      aDist (seq.getD p 0) t < aDist (seq.getD k 0) t) :
    nearestIdx seq t = p := by
  have hne : seq ≠ [] := by
    intro hcon; rw [hcon] at hp; simp at hp
  by_contra hnp
  have h1 := nearestIdx_min seq t p hp
  have h2 := h (nearestIdx seq t) (nearestIdx_lt_length seq t hne) hnp
  linarith

theorem getD_sorted_le {seq : List ℚ} (hs : seq.Sorted (· ≤ ·))
    {i j : Nat} (hij : i ≤ j) (hj : j < seq.length) :
    seq.getD i 0 ≤ seq.getD j 0 := by
  rcases Nat.eq_or_lt_of_le hij with rfl | hlt
  · exact le_rfl
  · have hi : i < seq.length := lt_trans hlt hj
    rw [List.getD_eq_getElem seq 0 hi, List.getD_eq_getElem seq 0 hj]
    exact List.pairwise_iff_get.1 hs ⟨i, hi⟩ ⟨j, hj⟩ hlt

/-- On an ascending axis the nearest index is monotone in the target. -/
theorem nearestIdx_mono {seq : List ℚ} (hs : seq.Sorted (· ≤ ·))
    {a b : ℚ} (hab : a ≤ b) :
    nearestIdx seq a ≤ nearestIdx seq b := by
  rcases eq_or_ne seq [] with rfl | hne
  · simp [nearestIdx]
  by_contra hcon
  push_neg at hcon
  set i := nearestIdx seq a with hi
  set j := nearestIdx seq b with hj
  have hilen : i < seq.length := nearestIdx_lt_length seq a hne
  have h1 : |seq.getD i 0 - a| < |seq.getD j 0 - a| := by
    have := nearestIdx_first seq a j hcon
    rwa [aDist_eq_abs, aDist_eq_abs] at this
  have h2 : |seq.getD j 0 - b| ≤ |seq.getD i 0 - b| := by
    have := nearestIdx_min seq b i hilen
    rwa [aDist_eq_abs, aDist_eq_abs] at this
  have hsji : seq.getD j 0 ≤ seq.getD i 0 :=
    getD_sorted_le hs (le_of_lt hcon) hilen
  set u := seq.getD j 0
  set v := seq.getD i 0
  have h1' : (v - a) * (v - a) < (u - a) * (u - a) := by
    have := mul_self_lt_mul_self (abs_nonneg (v - a)) h1
    simpa [abs_mul_abs_self] using this
  have h2' : (u - b) * (u - b) ≤ (v - b) * (v - b) := by
    have := mul_self_le_mul_self (abs_nonneg (u - b)) h2
    simpa [abs_mul_abs_self] using this
  nlinarith [mul_nonneg (sub_nonneg.2 hab) (sub_nonneg.2 hsji)]

/-- Negating both the sequence and the target leaves the nearest index
unchanged (distances are preserved). -/
theorem nearestIdx_neg (seq : List ℚ) (t : ℚ) :
    nearestIdx (seq.map (fun x => -x)) (-t) = nearestIdx seq t := by
  induction seq with
  | nil => simp [nearestIdx]
  | cons x rest ih =>
    cases rest with
    | nil => simp [nearestIdx]
    | cons y rest' =>
      have hcons : (x :: y :: rest').map (fun x => -x)
          = -x :: (y :: rest').map (fun x => -x) := by simp
      have hcons2 : (y :: rest').map (fun x => -x)
          = -y :: rest'.map (fun x => -x) := by simp
      rw [hcons, hcons2, nearestIdx, ← hcons2, ih, nearestIdx]
      have hlen : nearestIdx (y :: rest') t < (y :: rest').length :=
        nearestIdx_lt_length _ t (by simp)
      have hgd : ((y :: rest').map (fun x => -x)).getD (nearestIdx (y :: rest') t) 0
          = -((y :: rest').getD (nearestIdx (y :: rest') t) 0) := by
        rw [List.getD_eq_getElem _ 0 (by simpa using hlen),
            List.getD_eq_getElem _ 0 hlen, List.getElem_map]
      rw [hgd, aDist_neg_neg, aDist_neg_neg]

/-! ### Claim C1 -/

theorem locFile_isSome (files : List E5File2D) (t : ℚ) (hne : files ≠ []) :
    (locFile files t).isSome = true := by
  induction files with
  | nil => simp at hne
  | cons f rest ih =>
    cases rest with
    | nil => simp [locFile]
    | cons g rest' =>
      rw [locFile]
      split
      · rfl
      · exact ih (by simp)

theorem loc2D_before (f : E5File2D) (rest : List E5File2D) (ctime : ℚ)
    (n : Nat) (prev : Option (ℚ × E5File2D)) (h : ctime < f.t0) :
    loc2D (f :: rest) ctime 0 n prev
      = .error "Time is before range of times in files" := by
  unfold loc2D
  rw [if_pos ⟨h, rfl⟩]

theorem loc2D_after (files : List E5File2D) (ctime : ℚ) :
    ∀ it n prev, files ≠ [] → it + files.length = n →
    (∀ f ∈ files, f.t0 ≤ f.tN ∧ f.tN < ctime) →
    loc2D files ctime it n prev
      = .error "Time is after range of times in files" := by
  induction files with
  | nil => intro it n prev hne _ _; simp at hne
  | cons f rest ih =>
    intro it n prev _ hlen hall
    obtain ⟨hf1, hf2⟩ := hall f (by simp)
    have hlt : f.t0 < ctime := lt_of_le_of_lt hf1 hf2
    cases rest with
    | nil =>
      unfold loc2D
      rw [if_neg (fun hcon => absurd hcon.1 (not_lt.2 hlt.le)),
          if_pos ⟨hf2, by simp at hlen; omega⟩]
    | cons g rest' =>
      have hrest : ∀ x ∈ g :: rest', x.t0 ≤ x.tN ∧ x.tN < ctime :=
        fun x hx => hall x (by simp [hx])
      have hlen' : (it + 1) + (g :: rest').length = n := by
        simp at hlen ⊢; omega
      unfold loc2D
      rw [if_neg (fun hcon => absurd hcon.1 (not_lt.2 hlt.le)),
          if_neg (fun hcon => by have h2 := hcon.2; simp at hlen; omega),
          if_neg (fun hcon => absurd hcon.2 (not_le.2 hf2))]
      cases prev with
      | none =>
        show loc2D (g :: rest') ctime (it + 1) n (some (f.tN, f)) = _
        exact ih (it + 1) n _ (by simp) hlen' hrest
      | some p =>
        obtain ⟨lt, pf⟩ := p
        show (if lt ≤ ctime ∧ ctime ≤ f.t0 then Except.ok [pf, f]
              else loc2D (g :: rest') ctime (it + 1) n (some (f.tN, f))) = _
        rw [if_neg (fun hcon => absurd hcon.2 (not_le.2 hlt))]
        exact ih (it + 1) n _ (by simp) hlen' hrest

/-- C1 is refuted at the entry point `get_E5_ss_fiti`: for a query time
before the first time value of the earliest file it returns a file handle
and nearest-time indices instead of raising — the function contains no
raise statement at all. -/
theorem C1_counterexample_fiti_returns_below_range :
    ((5 : ℚ) < (⟨[10, 11, 12], [], [], []⟩ : E5File2D).t0)
    ∧ get_E5_ss_fiti [⟨[10, 11, 12], [], [], []⟩] 5
      = some (⟨[10, 11, 12], [], [], []⟩, [0, 1], [10, 11, 12], 5) := by
  constructor
  · norm_num [E5File2D.t0]
  · norm_num [get_E5_ss_fiti, locFile, kClosest2, nearestIdx, aDist, List.getD]

/-- C1 (amended): of the public locator entry points, `get_E5_ss_2D_fiti`
raises a `ValueError` with a descriptive message both when the requested
time precedes the first time value of the earliest file and when it
follows the last time value of the latest file; `get_E5_ss_fiti`, by
contrast, never raises — it returns a file with nearest-time indices for
every query over a nonempty archive. -/
theorem C1_amended_out_of_range_errors (allfiles : List E5File2D) (ctime : ℚ)
    (hne : allfiles ≠ []) :
    (ctime < allfiles.headI.t0 →
      get_E5_ss_2D_fiti allfiles ctime
        = .error "Time is before range of times in files")
    ∧ ((∀ f ∈ allfiles, f.t0 ≤ f.tN ∧ f.tN < ctime) →
      get_E5_ss_2D_fiti allfiles ctime
        = .error "Time is after range of times in files")
    ∧ (get_E5_ss_fiti allfiles ctime).isSome = true := by
  obtain ⟨f, rest, rfl⟩ := List.exists_cons_of_ne_nil hne
  refine ⟨?_, ?_, ?_⟩
  · intro h
    unfold get_E5_ss_2D_fiti
    rw [loc2D_before f rest ctime _ none (by simpa using h)]
  · intro h
    unfold get_E5_ss_2D_fiti
    rw [loc2D_after (f :: rest) ctime 0 (f :: rest).length none (by simp)
      (by simp) h]
  · have hs := locFile_isSome (f :: rest) ctime (by simp)
    cases hloc : locFile (f :: rest) ctime with
    | none => rw [hloc] at hs; simp at hs
    | some fh =>
      by_cases hm : ctime ∈ fh.times <;>
        simp [get_E5_ss_fiti, hloc, hm]

/-- Witness for C1 (amended): a one-file archive with times 10..12,
queried at 5 and at 20. -/
theorem C1_amended_out_of_range_errors_witness :
    get_E5_ss_2D_fiti [⟨[10, 11, 12], [], [], []⟩] 5
      = .error "Time is before range of times in files"
    ∧ get_E5_ss_2D_fiti [⟨[10, 11, 12], [], [], []⟩] 20
      = .error "Time is after range of times in files" := by
  constructor
  · exact (C1_amended_out_of_range_errors [⟨[10, 11, 12], [], [], []⟩] 5
      (by simp)).1 (by norm_num [E5File2D.t0])
  · refine (C1_amended_out_of_range_errors [⟨[10, 11, 12], [], [], []⟩] 20
      (by simp)).2.1 ?_
    intro f hf
    simp only [List.mem_singleton] at hf
    subst hf
    norm_num [E5File2D.t0, E5File2D.tN, List.getLastI]

/-! ### Claim C2 -/

/-- C2 is refuted at `get_E5_ss_2D_coords`: over the ascending [0, 360)
axis `[0, 90, 180, 270]`, the centre-window query (centre 0°, half-width
90°) wraps the seam, resolves to longitude indices (3, 1), and returns the
raw concatenation `[270, 0, 90]` — the pre-seam value 270 ≥ 180 is not
converted to −90 and the returned vector is not monotonically
increasing. -/
theorem C2_counterexample_2D_coords_unconverted :
    get_E5_ss_2D_coords ⟨[10], [0], [0, 90, 180, 270], []⟩ 0 0 90
      = .ok ((3, 1), (0, 0), [270, 0, 90], [0])
    ∧ ¬ ([(270 : ℚ), 0, 90].Sorted (· < ·))
    ∧ [(270 : ℚ), 0, 90] ≠ [-90, 0, 90] := by
  refine ⟨?_, ?_, ?_⟩
  · norm_num [get_E5_ss_2D_coords, clonWindow, clatWindow, normLon,
      nearestIdx, aDist, List.getLastI, List.getD]
  · intro hcon
    rw [List.sorted_cons] at hcon
    have := hcon.1 0 (by simp)
    norm_num at this
  · simp only [ne_eq, List.cons.injEq]
    intro hcon
    norm_num at hcon

/-- C2 (amended): for a wraparound longitude window (resolved start index
greater than end index), `get_E5_ss_4D_coords` returns the concatenation
of the axis values from the start index to the axis end — with each value
of that pre-seam segment that is ≥ 180 replaced by value − 360 — followed
by the values from index 0 through the end index, and the result is
monotonically increasing through zero whenever the axis is ascending
within [0, 360) and the pre-seam segment holds only values ≥ 180;
`get_E5_ss_2D_coords`, by contrast, returns the raw concatenation of the
two segments with no signed-degree conversion. -/
theorem C2_amended_wraparound_longitude_vector :
    (∀ (fh : E5File4D) (lat1 lat2 lon1 lon2 : ℚ) lati loni
        (lats lons : List ℚ),
      get_E5_ss_4D_coords fh lat1 lat2 lon1 lon2 = .ok (lati, loni, lats, lons) →
      loni.2 < loni.1 →
      lons = (fh.lon.drop loni.1).map (fun l => if l < 180 then l else l - 360)
              ++ fh.lon.take (loni.2 + 1))
    ∧ (∀ (fh : E5File4D) (lat1 lat2 lon1 lon2 : ℚ) lati loni
        (lats lons : List ℚ),
      get_E5_ss_4D_coords fh lat1 lat2 lon1 lon2 = .ok (lati, loni, lats, lons) →
      loni.2 < loni.1 →
      fh.lon.Sorted (· < ·) →
      (∀ v ∈ fh.lon, 0 ≤ v ∧ v < 360) →
      (∀ v ∈ fh.lon.drop loni.1, 180 ≤ v) →
      lons.Sorted (· < ·))
    ∧ (∀ (g : E5File2D) (clon clat hda : ℚ) loni lati
        (lons lats : List ℚ),
      get_E5_ss_2D_coords g clon clat hda = .ok (loni, lati, lons, lats) →
      loni.2 < loni.1 →
      lons = g.lon.drop loni.1 ++ g.lon.take (loni.2 + 1)) := by
  have h4D : ∀ (fh : E5File4D) (lat1 lat2 lon1 lon2 : ℚ) lati loni
      (lats lons : List ℚ),
      get_E5_ss_4D_coords fh lat1 lat2 lon1 lon2 = .ok (lati, loni, lats, lons) →
      loni.2 < loni.1 →
      lons = (fh.lon.drop loni.1).map (fun l => if l < 180 then l else l - 360)
              ++ fh.lon.take (loni.2 + 1) := by
    intro fh lat1 lat2 lon1 lon2 lati loni lats lons h hwrap
    simp only [get_E5_ss_4D_coords] at h
    split at h
    next hc =>
      simp only [Except.ok.injEq, Prod.mk.injEq] at h
      obtain ⟨h1, h2, h3, h4⟩ := h
      rw [← h2] at hwrap
      simp only [] at hwrap
      omega
    next hc1 =>
      split at h
      next hc =>
        simp only [Except.ok.injEq, Prod.mk.injEq] at h
        obtain ⟨h1, h2, h3, h4⟩ := h
        rw [← h4, ← h2]
      next hc => simp at h
  refine ⟨h4D, ?_, ?_⟩
  · intro fh lat1 lat2 lon1 lon2 lati loni lats lons h hwrap hsort hrng hseg
    rw [h4D fh lat1 lat2 lon1 lon2 lati loni lats lons h hwrap]
    have hconv : (fh.lon.drop loni.1).map (fun l => if l < 180 then l else l - 360)
        = (fh.lon.drop loni.1).map (fun l => l - 360) := by
      apply List.map_congr_left
      intro v hv
      rw [if_neg (not_lt.2 (hseg v hv))]
    rw [hconv]
    refine List.pairwise_append.mpr ⟨?_, ?_, ?_⟩
    · refine List.pairwise_map.mpr ?_
      exact ((hsort.sublist (List.drop_sublist loni.1 fh.lon)).imp
        (fun hab => by linarith))
    · exact hsort.sublist (List.take_sublist (loni.2 + 1) fh.lon)
    · intro x hx y hy
      obtain ⟨v, hv, rfl⟩ := List.mem_map.1 hx
      have hv360 : v < 360 := (hrng v (List.mem_of_mem_drop hv)).2
      have hy0 : 0 ≤ y := (hrng y (List.mem_of_mem_take hy)).1
      linarith
  · intro g clon clat hda loni lati lons lats h hwrap
    simp only [get_E5_ss_2D_coords] at h
    split at h
    next hc =>
      simp only [Except.ok.injEq, Prod.mk.injEq] at h
      obtain ⟨h1, h2, h3, h4⟩ := h
      rw [← h1] at hwrap
      simp only [] at hwrap
      omega
    next hc1 =>
      split at h
      next hc =>
        simp only [Except.ok.injEq, Prod.mk.injEq] at h
        obtain ⟨h1, h2, h3, h4⟩ := h
        rw [← h3, ← h1]
      next hc => simp at h

/-- Witness for C2 (amended): over the axis `[0, 90, 180, 270]` a window
from 180° to 90° wraps (indices (2, 1)); `get_E5_ss_4D_coords` converts
the pre-seam segment to `[-180, -90]` and appends `[0, 90]`, strictly
increasing through zero. -/
theorem C2_amended_wraparound_longitude_vector_witness :
    get_E5_ss_4D_coords ⟨[10], [], [0], [0, 90, 180, 270], []⟩ 0 0 180 90
      = .ok ((0, 0), (2, 1), [0], [-180, -90, 0, 90])
    ∧ ([(-180 : ℚ), -90, 0, 90] : List ℚ).Sorted (· < ·) := by
  have hrun : get_E5_ss_4D_coords ⟨[10], [], [0], [0, 90, 180, 270], []⟩ 0 0 180 90
      = .ok ((0, 0), (2, 1), [0], [-180, -90, 0, 90]) := by
    norm_num [get_E5_ss_4D_coords, normLon, nearestIdx, aDist, List.getD]
  refine ⟨hrun, ?_⟩
  have h := (C2_amended_wraparound_longitude_vector).2.1
    ⟨[10], [], [0], [0, 90, 180, 270], []⟩ 0 0 180 90
    (0, 0) (2, 1) [0] [-180, -90, 0, 90] hrun (by norm_num)
    (by norm_num [List.sorted_cons]) (by intro v hv; fin_cases hv <;> norm_num)
    (by intro v hv; fin_cases hv <;> norm_num)
  exact h

/-! ### Claim C9 -/

/-- C9 is refuted: over the ascending latitude axis `[0, 1, 2, 3]` with
bounds `lat1 = 1 ≤ lat2 = 2`, `get_E5_ss_4D_coords` resolves the latitude
window to `lati = (2, 1)` — start index 2 greater than end index 1, not
`lati[0] ≤ lati[1]` — and the sliced latitude coordinate list `lat[2:2]`
is empty, not non-empty. -/
theorem C9_counterexample_ascending_latitude_window :
    get_E5_ss_4D_coords ⟨[0], [], [0, 1, 2, 3], [0, 10, 20], []⟩ 1 2 0 20
      = .ok ((2, 1), (0, 2), [], [0, 10, 20])
    ∧ ¬ ((2 : Nat) ≤ 1) := by
  refine ⟨?_, by omega⟩
  norm_num [get_E5_ss_4D_coords, normLon, nearestIdx, aDist, List.getD]

/-- C9 (amended): the longitude window of the coordinate resolvers is
ordered (start ≤ end, both valid) over an ascending axis with normalised
`lon1 ≤ lon2`.  The latitude window of `get_E5_ss_4D_coords` is
`(k_closest(lat, lat2), k_closest(lat, lat1))` — the upper bound first —
so for `lat1 ≤ lat2` it satisfies start ≤ end, with a non-empty latitude
slice, exactly when the latitude axis is stored descending (ERA5's
convention); over an ascending latitude axis the window is reversed
(end ≤ start). -/
theorem C9_amended_index_window_orientation (fh : E5File4D)
    (lat1 lat2 lon1 lon2 : ℚ) :
    (∀ lati loni (lats lons : List ℚ),
      get_E5_ss_4D_coords fh lat1 lat2 lon1 lon2 = .ok (lati, loni, lats, lons) →
      lati = (nearestIdx fh.lat lat2, nearestIdx fh.lat lat1)
      ∧ loni = (nearestIdx fh.lon (normLon lon1), nearestIdx fh.lon (normLon lon2)))
    ∧ (fh.lon.Sorted (· ≤ ·) → normLon lon1 ≤ normLon lon2 →
      nearestIdx fh.lon (normLon lon1) ≤ nearestIdx fh.lon (normLon lon2))
    ∧ (fh.lon ≠ [] → nearestIdx fh.lon (normLon lon2) < fh.lon.length)
    ∧ (fh.lat.Sorted (fun a b => b ≤ a) → lat1 ≤ lat2 →
      nearestIdx fh.lat lat2 ≤ nearestIdx fh.lat lat1)
    ∧ (fh.lat ≠ [] → nearestIdx fh.lat lat1 < fh.lat.length)
    ∧ (fh.lat ≠ [] → fh.lat.Sorted (fun a b => b ≤ a) → lat1 ≤ lat2 →
      1 ≤ ((fh.lat.drop (nearestIdx fh.lat lat2)).take
        (nearestIdx fh.lat lat1 + 1 - nearestIdx fh.lat lat2)).length)
    ∧ (fh.lat.Sorted (· ≤ ·) → lat1 ≤ lat2 →
      nearestIdx fh.lat lat1 ≤ nearestIdx fh.lat lat2) := by
  have hdesc : fh.lat.Sorted (fun a b => b ≤ a) → lat1 ≤ lat2 →
      nearestIdx fh.lat lat2 ≤ nearestIdx fh.lat lat1 := by
    intro hs hab
    have hmapsort : (fh.lat.map (fun x => -x)).Sorted (· ≤ ·) :=
      List.pairwise_map.mpr (hs.imp (fun hab => by linarith))
    have h1 := nearestIdx_neg fh.lat lat2
    have h2 := nearestIdx_neg fh.lat lat1
    rw [← h1, ← h2]
    exact nearestIdx_mono hmapsort (by linarith)
  refine ⟨?_, ?_, ?_, hdesc, ?_, ?_, ?_⟩
  · intro lati loni lats lons h
    simp only [get_E5_ss_4D_coords] at h
    split at h
    next hc =>
      simp only [Except.ok.injEq, Prod.mk.injEq] at h
      exact ⟨h.1.symm, h.2.1.symm⟩
    next hc1 =>
      split at h
      next hc =>
        simp only [Except.ok.injEq, Prod.mk.injEq] at h
        exact ⟨h.1.symm, h.2.1.symm⟩
      next hc => simp at h
  · intro hs hle
    exact nearestIdx_mono hs hle
  · intro hne
    exact nearestIdx_lt_length fh.lon _ hne
  · intro hne
    exact nearestIdx_lt_length fh.lat _ hne
  · intro hne hs hab
    have h1 := hdesc hs hab
    have h2 := nearestIdx_lt_length fh.lat lat1 hne
    rw [List.length_take, List.length_drop]
    omega
  · intro hs hab
    exact nearestIdx_mono hs hab

/-- Witness for C9 (amended): descending latitude axis `[3, 2, 1, 0]` with
bounds 1 ≤ 2 gives the ordered window (1, 2); ascending longitude axis
`[0, 10, 20]` with bounds 0 ≤ 20 gives an ordered window. -/
theorem C9_amended_index_window_orientation_witness :
    nearestIdx [(3 : ℚ), 2, 1, 0] 2 ≤ nearestIdx [(3 : ℚ), 2, 1, 0] 1
    ∧ nearestIdx [(0 : ℚ), 10, 20] (normLon 0) ≤ nearestIdx [(0 : ℚ), 10, 20] (normLon 20) := by
  constructor
  · exact (C9_amended_index_window_orientation ⟨[0], [], [3, 2, 1, 0], [0, 10, 20], []⟩
      1 2 0 20).2.2.2.1 (by norm_num [List.sorted_cons]) (by norm_num)
  · exact (C9_amended_index_window_orientation ⟨[0], [], [3, 2, 1, 0], [0, 10, 20], []⟩
      1 2 0 20).2.1 (by norm_num [List.sorted_cons]) (by norm_num [normLon])

/-! ### Claim C5 -/

/-- C5: for a single-instant query whose requested time exactly equals a
stored time value in the located file, the locator returns that exact
index — found by membership and `times.index` lookup, not nearest-neighbour
search — as a one-element index list, and the reader returns the stored
slice at that index unchanged, with no time interpolation applied. -/
theorem C5_exact_time_returns_stored_slice
    (allfiles : List E5File2D) (ctime : ℚ) (f : E5File2D) (lati loni : Nat × Nat)
    (hloc : loc2D allfiles ctime 0 allfiles.length none = .ok [f])
    (hmem : ctime ∈ f.times)
    (hlon : loni.1 < loni.2) :
    get_E5_ss_2D_fiti allfiles ctime
      = .ok ([f], [f.times.indexOf ctime], [ctime], ctime)
    ∧ f.times.getD (f.times.indexOf ctime) 0 = ctime
    ∧ get_E5_ss_2D_var [f] [f.times.indexOf ctime] loni lati [ctime] ctime
      = .ok (subgrid2N (f.var.getD (f.times.indexOf ctime) []) lati loni) := by
  have hgetD : f.times.getD (f.times.indexOf ctime) 0 = ctime := by
    rw [List.getD_eq_getElem f.times 0 (List.indexOf_lt_length.2 hmem)]
    exact List.getElem_indexOf _
  refine ⟨?_, hgetD, ?_⟩
  · simp [get_E5_ss_2D_fiti, hloc, hmem, hgetD]
  · simp [get_E5_ss_2D_var, hlon]

/-- Witness for C5: a file with times 0..2 queried at the stored time 1
returns index 1 and the raw stored slice at time index 1, bit for bit. -/
theorem C5_exact_time_returns_stored_slice_witness :
    get_E5_ss_2D_fiti
        [⟨[0, 1, 2], [5, 6], [0, 10],
          [[[1, 2], [3, 4]], [[5, 6], [7, 8]], [[9, 10], [11, 12]]]⟩] 1
      = .ok ([⟨[0, 1, 2], [5, 6], [0, 10],
          [[[1, 2], [3, 4]], [[5, 6], [7, 8]], [[9, 10], [11, 12]]]⟩], [1], [1], 1)
    ∧ get_E5_ss_2D_var
        [⟨[0, 1, 2], [5, 6], [0, 10],
          [[[1, 2], [3, 4]], [[5, 6], [7, 8]], [[9, 10], [11, 12]]]⟩]
        [1] (0, 1) (0, 1) [1] 1
      = .ok [[5, 6], [7, 8]] := by
  have h := C5_exact_time_returns_stored_slice
    [⟨[0, 1, 2], [5, 6], [0, 10],
      [[[1, 2], [3, 4]], [[5, 6], [7, 8]], [[9, 10], [11, 12]]]⟩] 1
    ⟨[0, 1, 2], [5, 6], [0, 10],
      [[[1, 2], [3, 4]], [[5, 6], [7, 8]], [[9, 10], [11, 12]]]⟩ (0, 1) (0, 1)
    (by norm_num [loc2D, E5File2D.t0, E5File2D.tN, List.getLastI])
    (by norm_num) (by norm_num)
  have hidx : (([0, 1, 2] : List ℚ)).indexOf 1 = 1 := by
    norm_num [List.indexOf_cons]
  constructor
  · have h1 := h.1
    rw [show (⟨[0, 1, 2], [5, 6], [0, 10],
      [[[1, 2], [3, 4]], [[5, 6], [7, 8]], [[9, 10], [11, 12]]]⟩ : E5File2D).times
        = [0, 1, 2] from rfl, hidx] at h1
    exact h1
  · have h2 := h.2.2
    rw [show (⟨[0, 1, 2], [5, 6], [0, 10],
      [[[1, 2], [3, 4]], [[5, 6], [7, 8]], [[9, 10], [11, 12]]]⟩ : E5File2D).times
        = [0, 1, 2] from rfl, hidx] at h2
    exact h2.trans (by rfl)

/-! ### Claim C6 -/

theorem aDist_of_le {x t : ℚ} (h : x ≤ t) : aDist x t = t - x := by
  unfold aDist
  split
  next => rfl
  next hb =>
    push_neg at hb
    linarith

theorem aDist_of_ge {x t : ℚ} (h : t ≤ x) : aDist x t = x - t := by
  unfold aDist
  split
  next hb => linarith
  next => rfl

/-- On a uniformly spaced axis, values at least one step apart differ by at
least the step. -/
theorem uniform_gap {seq : List ℚ} {d : ℚ}
    (hu : ∀ k, k + 1 < seq.length → seq.getD (k + 1) 0 - seq.getD k 0 = d)
    (hd : 0 < d) :
    ∀ j k, j < k → k < seq.length → seq.getD j 0 + d ≤ seq.getD k 0 := by
  intro j k
  induction k with
  | zero => intro h _; omega
  | succ m ih =>
    intro hjm hm
    have hstep : seq.getD (m + 1) 0 - seq.getD m 0 = d := hu m hm
    rcases Nat.lt_succ_iff_lt_or_eq.1 hjm with hj | rfl
    · have := ih hj (by omega)
      linarith
    · linarith

/-- On a uniformly spaced axis, a target strictly between two adjacent
values has one of those two as its nearest element. -/
theorem nearestIdx_bracket {seq : List ℚ} {d t : ℚ} {i : Nat}
    (hu : ∀ k, k + 1 < seq.length → seq.getD (k + 1) 0 - seq.getD k 0 = d)
    (hd : 0 < d) (hi : i + 1 < seq.length)
    (hlo : seq.getD i 0 < t) (hhi : t < seq.getD (i + 1) 0) :
    nearestIdx seq t = i ∨ nearestIdx seq t = i + 1 := by
  have hne : seq ≠ [] := by
    intro hc; rw [hc] at hi; simp at hi
  set m := nearestIdx seq t with hm
  have hmlen : m < seq.length := nearestIdx_lt_length seq t hne
  by_contra hcon
  push_neg at hcon
  obtain ⟨h1, h2⟩ := hcon
  rcases Nat.lt_or_ge m i with hlt | hge
  · have hgap := uniform_gap hu hd m i hlt (by omega)
    have hda : aDist (seq.getD m 0) t = t - seq.getD m 0 :=
      aDist_of_le (by linarith)
    have hdi : aDist (seq.getD i 0) t = t - seq.getD i 0 := aDist_of_le hlo.le
    have hmin := nearestIdx_min seq t i (by omega)
    rw [← hm, hda, hdi] at hmin
    linarith
  · have hgt : i + 1 < m := by omega
    have hgap := uniform_gap hu hd (i + 1) m hgt hmlen
    have hda : aDist (seq.getD m 0) t = seq.getD m 0 - t :=
      aDist_of_ge (by linarith)
    have hdi : aDist (seq.getD (i + 1) 0) t = seq.getD (i + 1) 0 - t :=
      aDist_of_ge hhi.le
    have hmin := nearestIdx_min seq t (i + 1) hi
    rw [← hm, hda, hdi] at hmin
    linarith

theorem getD_eraseIdx_lt (seq : List ℚ) (m k : Nat) (hm : m < seq.length)
    (hk : k < m) :
    (seq.eraseIdx m).getD k 0 = seq.getD k 0 := by
  have hlen : (seq.eraseIdx m).length = seq.length - 1 := by
    rw [List.length_eraseIdx]; simp [hm]
  have hk1 : k < (seq.eraseIdx m).length := by omega
  have hk2 : k < seq.length := by omega
  rw [List.getD_eq_getElem _ 0 hk1, List.getD_eq_getElem _ 0 hk2,
      List.getElem_eraseIdx seq m k hk1, dif_pos hk]

theorem getD_eraseIdx_ge (seq : List ℚ) (m k : Nat) (hm : m ≤ k)
    (hk : k + 1 < seq.length) :
    (seq.eraseIdx m).getD k 0 = seq.getD (k + 1) 0 := by
  have hmlt : m < seq.length := by omega
  have hlen : (seq.eraseIdx m).length = seq.length - 1 := by
    rw [List.length_eraseIdx]; simp [hmlt]
  have hk1 : k < (seq.eraseIdx m).length := by omega
  rw [List.getD_eq_getElem _ 0 hk1, List.getD_eq_getElem _ 0 hk,
      List.getElem_eraseIdx seq m k hk1, dif_neg (by omega)]

/-- On a uniformly spaced axis, the two nearest indices to a target
strictly between two adjacent values are exactly the bracketing pair, in
ascending order. -/
theorem kClosest2_bracket {seq : List ℚ} {d t : ℚ} {i : Nat}
    (hu : ∀ k, k + 1 < seq.length → seq.getD (k + 1) 0 - seq.getD k 0 = d)
    (hd : 0 < d) (hi : i + 1 < seq.length)
    (hlo : seq.getD i 0 < t) (hhi : t < seq.getD (i + 1) 0) :
    kClosest2 seq t = [i, i + 1] := by
  have hstep : seq.getD (i + 1) 0 - seq.getD i 0 = d := hu i hi
  have hne : seq ≠ [] := by
    intro hc; rw [hc] at hi; simp at hi
  have hmlen := nearestIdx_lt_length seq t hne
  have hilt : i < seq.length := by omega
  rcases nearestIdx_bracket hu hd hi hlo hhi with hm | hm
  · have hlen : (seq.eraseIdx i).length = seq.length - 1 := by
      rw [List.length_eraseIdx]; simp [hilt]
    have hsecond : nearestIdx (seq.eraseIdx i) t = i := by
      apply nearestIdx_eq_of_strict
      · rw [hlen]; omega
      · intro k hk hki
        rw [hlen] at hk
        have hei : (seq.eraseIdx i).getD i 0 = seq.getD (i + 1) 0 :=
          getD_eraseIdx_ge seq i i le_rfl hi
        rcases Nat.lt_or_ge k i with hklt | hkge
        · have hek : (seq.eraseIdx i).getD k 0 = seq.getD k 0 :=
            getD_eraseIdx_lt seq i k (by omega) hklt
          have hgap := uniform_gap hu hd k i hklt (by omega)
          rw [hei, hek, aDist_of_ge hhi.le, aDist_of_le (by linarith)]
          linarith
        · have hek : (seq.eraseIdx i).getD k 0 = seq.getD (k + 1) 0 :=
            getD_eraseIdx_ge seq i k hkge (by omega)
          have hgap := uniform_gap hu hd (i + 1) (k + 1) (by omega) (by omega)
          rw [hei, hek, aDist_of_ge hhi.le, aDist_of_ge (by linarith)]
          linarith
    simp only [kClosest2, hm, hsecond]
    rw [if_neg (lt_irrefl i), if_pos (Nat.le_succ i)]
  · have hlen : (seq.eraseIdx (i + 1)).length = seq.length - 1 := by
      rw [List.length_eraseIdx]; simp [hi]
    have hsecond : nearestIdx (seq.eraseIdx (i + 1)) t = i := by
      apply nearestIdx_eq_of_strict
      · rw [hlen]; omega
      · intro k hk hki
        rw [hlen] at hk
        have hei : (seq.eraseIdx (i + 1)).getD i 0 = seq.getD i 0 :=
          getD_eraseIdx_lt seq (i + 1) i hi (by omega)
        rcases Nat.lt_or_ge k i with hklt | hkge
        · have hek : (seq.eraseIdx (i + 1)).getD k 0 = seq.getD k 0 :=
            getD_eraseIdx_lt seq (i + 1) k hi (by omega)
          have hgap := uniform_gap hu hd k i hklt (by omega)
          rw [hei, hek, aDist_of_le hlo.le, aDist_of_le (by linarith)]
          linarith
        · have hkgt : i < k := by omega
          have hek : (seq.eraseIdx (i + 1)).getD k 0 = seq.getD (k + 1) 0 :=
            getD_eraseIdx_ge seq (i + 1) k (by omega) (by omega)
          have hgap := uniform_gap hu hd (i + 1) (k + 1) (by omega) (by omega)
          rw [hei, hek, aDist_of_le hlo.le, aDist_of_ge (by linarith)]
          linarith
    simp only [kClosest2, hm, hsecond]
    rw [if_pos (Nat.lt_succ_self i), if_neg (by omega)]

/-- On a uniformly spaced axis, a target strictly between two adjacent
values is not itself a stored value. -/
theorem not_mem_of_bracket {seq : List ℚ} {d t : ℚ} {i : Nat}
    (hu : ∀ k, k + 1 < seq.length → seq.getD (k + 1) 0 - seq.getD k 0 = d)
    (hd : 0 < d) (hi : i + 1 < seq.length)
    (hlo : seq.getD i 0 < t) (hhi : t < seq.getD (i + 1) 0) :
    t ∉ seq := by
  intro hmem
  obtain ⟨k, hk, hkt⟩ := List.getElem_of_mem hmem
  have hgd : seq.getD k 0 = t := by
    rw [List.getD_eq_getElem _ 0 hk]; exact hkt
  rcases Nat.lt_or_ge k i with hki | hki
  · have := uniform_gap hu hd k i hki (by omega)
    linarith
  · rcases Nat.lt_or_ge k (i + 1) with hk1 | hk1
    · have hkeq : k = i := by omega
      subst hkeq
      linarith
    · rcases Nat.lt_or_ge (i + 1) k with hk2 | hk2
      · have := uniform_gap hu hd (i + 1) k hk2 hk
        linarith
      · have hkeq : k = i + 1 := by omega
        subst hkeq
        linarith

theorem drop_take_two {α : Type} [Inhabited α] (l : List α) :
    ∀ i, i + 1 < l.length →
      (l.drop i).take 2 = [l.getD i default, l.getD (i + 1) default] := by
  induction l with
  | nil => intro i h; simp at h
  | cons x rest ih =>
    intro i h
    cases i with
    | zero =>
      cases rest with
      | nil => simp at h
      | cons y rest' => simp
    | succ i' =>
      simp only [List.drop_succ_cons, List.getD_cons_succ]
      exact ih i' (by simpa using h)

/-- C6 is refuted on a non-uniformly spaced time axis: with stored times
`[0, 10, 100]` and the query time 11, which lies strictly between the
stored times 10 and 100, the two nearest indices are 0 and 1 (times 0 and
10) — not the bracketing pair — and the reader then aborts with scipy's
out-of-range error instead of interpolating between the bracketing
slices. -/
theorem C6_counterexample_nonuniform_no_bracketing :
    ((10 : ℚ) < 11 ∧ (11 : ℚ) < 100)
    ∧ get_E5_ss_2D_fiti [⟨[0, 10, 100], [0], [0, 10],
        [[[1, 2]], [[3, 4]], [[5, 6]]]⟩] 11
      = .ok ([⟨[0, 10, 100], [0], [0, 10],
          [[[1, 2]], [[3, 4]], [[5, 6]]]⟩], [0, 1], [0, 10], 11)
    ∧ get_E5_ss_2D_var [⟨[0, 10, 100], [0], [0, 10],
        [[[1, 2]], [[3, 4]], [[5, 6]]]⟩] [0, 1] (0, 1) (0, 0) [0, 10] 11
      = .error "ValueError: A value in x_new is above the interpolation range." := by
  refine ⟨by norm_num, ?_, ?_⟩
  · norm_num [get_E5_ss_2D_fiti, loc2D, kClosest2, nearestIdx, aDist,
      E5File2D.t0, E5File2D.tN, List.getLastI, List.getD]
  · norm_num [get_E5_ss_2D_var, interp1dAt, List.getLastI]

/-- C6 (amended): over a uniformly spaced time axis — the data model's
standing assumption — a single-instant query strictly between two adjacent
stored times makes the locator return the two bracketing indices, and
`get_E5_ss_2D_var` computes the result by pointwise linear interpolation
in time between the two bracketing slices evaluated at the exact requested
time; at the midpoint timestamp the result is the pointwise arithmetic
mean of the two bracketing slices. -/
theorem C6_amended_between_times_interpolates
    (allfiles : List E5File2D) (f : E5File2D) (d ctime : ℚ) (i : Nat)
    (lati loni : Nat × Nat)
    (hu : ∀ k, k + 1 < f.times.length →
      f.times.getD (k + 1) 0 - f.times.getD k 0 = d)
    (hd : 0 < d) (hi : i + 1 < f.times.length)
    (hlo : f.times.getD i 0 < ctime) (hhi : ctime < f.times.getD (i + 1) 0)
    (hvar : f.var.length = f.times.length)
    (hloc : loc2D allfiles ctime 0 allfiles.length none = .ok [f]) :
    ctime ∉ f.times
    ∧ get_E5_ss_2D_fiti allfiles ctime
      = .ok ([f], [i, i + 1], [f.times.getD i 0, f.times.getD (i + 1) 0], ctime)
    ∧ (loni.1 < loni.2 →
      get_E5_ss_2D_var [f] [i, i + 1] loni lati
          [f.times.getD i 0, f.times.getD (i + 1) 0] ctime
        = .ok (map2Grid
            (fun a b => a + (b - a) * ((ctime - f.times.getD i 0) /
              (f.times.getD (i + 1) 0 - f.times.getD i 0)))
            (subgrid2N (f.var.getD i []) lati loni)
            (subgrid2N (f.var.getD (i + 1) []) lati loni)))
    ∧ (loni.1 < loni.2 →
      ctime = (f.times.getD i 0 + f.times.getD (i + 1) 0) / 2 →
      get_E5_ss_2D_var [f] [i, i + 1] loni lati
          [f.times.getD i 0, f.times.getD (i + 1) 0] ctime
        = .ok (map2Grid (fun a b => (a + b) / 2)
            (subgrid2N (f.var.getD i []) lati loni)
            (subgrid2N (f.var.getD (i + 1) []) lati loni))) := by
  have hnm : ctime ∉ f.times := not_mem_of_bracket hu hd hi hlo hhi
  have hbr : kClosest2 f.times ctime = [i, i + 1] :=
    kClosest2_bracket hu hd hi hlo hhi
  have hvar2 : (f.var.drop i).take 2 = [f.var.getD i [], f.var.getD (i + 1) []] := by
    have := drop_take_two f.var i (by omega)
    simpa using this
  have hlerp : loni.1 < loni.2 →
      get_E5_ss_2D_var [f] [i, i + 1] loni lati
          [f.times.getD i 0, f.times.getD (i + 1) 0] ctime
        = .ok (map2Grid
            (fun a b => a + (b - a) * ((ctime - f.times.getD i 0) /
              (f.times.getD (i + 1) 0 - f.times.getD i 0)))
            (subgrid2N (f.var.getD i []) lati loni)
            (subgrid2N (f.var.getD (i + 1) []) lati loni)) := by
    intro hlon
    have h2 : i + 1 + 1 - i = 2 := by omega
    have hx : f.times.getD i 0 ≤ f.times.getD (i + 1) 0 := by linarith
    have hn1 : ¬ ctime < f.times.getD i 0 := not_lt.2 hlo.le
    have hn2 : ¬ f.times.getD (i + 1) 0 < ctime := not_lt.2 hhi.le
    have hn3 : ¬ (f.times.getD i 0 = f.times.getD (i + 1) 0) := by
      intro hc; linarith
    simp only [get_E5_ss_2D_var, List.length_singleton, List.length_cons,
      List.length_nil]
    rw [if_neg (by simp), if_pos (by simp), if_pos (by simpa using hlon)]
    simp only [List.headI, List.getLastI, h2, hvar2, List.map_cons, List.map_nil]
    simp only [interp1dAt, List.length_cons, List.length_nil, List.headI,
      List.getLastI]
    rw [if_pos (by simp)]
    simp only [if_pos hx, if_neg hn1, if_neg hn2, if_neg hn3]
  refine ⟨hnm, ?_, hlerp, ?_⟩
  · simp [get_E5_ss_2D_fiti, hloc, hnm, hbr, List.getLastI]
  · intro hlon hmid
    rw [hlerp hlon]
    have hfun : (fun a b => a + (b - a) * ((ctime - f.times.getD i 0) /
          (f.times.getD (i + 1) 0 - f.times.getD i 0)))
        = (fun a b : ℚ => (a + b) / 2) := by
      set u := f.times.getD i 0 with hu'
      set v := f.times.getD (i + 1) 0 with hv'
      funext a b
      have hne : v - u ≠ 0 := by
        have : u < v := lt_trans hlo hhi
        intro hc
        linarith
      rw [hmid]
      field_simp
      ring
    rw [hfun]

/-- Witness for C6 (amended): uniform times `[0, 2, 4]`, query at the
midpoint 1 between times 0 and 2; the result is the pointwise mean of the
first two stored slices. -/
theorem C6_amended_between_times_interpolates_witness :
    get_E5_ss_2D_fiti [⟨[0, 2, 4], [5, 6], [0, 10],
        [[[0, 0], [0, 0]], [[2, 4], [6, 8]], [[9, 9], [9, 9]]]⟩] 1
      = .ok ([⟨[0, 2, 4], [5, 6], [0, 10],
          [[[0, 0], [0, 0]], [[2, 4], [6, 8]], [[9, 9], [9, 9]]]⟩], [0, 1], [0, 2], 1)
    ∧ get_E5_ss_2D_var [⟨[0, 2, 4], [5, 6], [0, 10],
        [[[0, 0], [0, 0]], [[2, 4], [6, 8]], [[9, 9], [9, 9]]]⟩]
        [0, 1] (0, 1) (0, 1) [0, 2] 1
      = .ok [[1, 2], [3, 4]] := by
  have h := C6_amended_between_times_interpolates
    [⟨[0, 2, 4], [5, 6], [0, 10],
      [[[0, 0], [0, 0]], [[2, 4], [6, 8]], [[9, 9], [9, 9]]]⟩]
    ⟨[0, 2, 4], [5, 6], [0, 10],
      [[[0, 0], [0, 0]], [[2, 4], [6, 8]], [[9, 9], [9, 9]]]⟩
    2 1 0 (0, 1) (0, 1)
    (by intro k hk
        simp only [List.length_cons, List.length_nil] at hk
        have hk01 : k = 0 ∨ k = 1 := by omega
        rcases hk01 with rfl | rfl <;> norm_num [List.getD])
    (by norm_num) (by norm_num)
    (by norm_num [List.getD]) (by norm_num [List.getD]) (by norm_num)
    (by norm_num [loc2D, E5File2D.t0, E5File2D.tN, List.getLastI])
  constructor
  · have h1 := h.2.1
    norm_num [List.getD] at h1
    exact h1
  · have h4 := h.2.2.2 (by norm_num) (by norm_num [List.getD])
    norm_num [List.getD] at h4
    rw [h4]
    norm_num [map2Grid, subgrid2N, List.getD]

/-! ### Claim C3 -/

theorem headI_eq_getD (l : List ℚ) (h : l ≠ []) : l.headI = l.getD 0 0 := by
  cases l with
  | nil => simp at h
  | cons x rest => rfl

theorem getLastI_eq_getD (l : List ℚ) (h : l ≠ []) :
    l.getLastI = l.getD (l.length - 1) 0 := by
  have hlen : l.length - 1 < l.length := by
    have := List.length_pos.2 h
    omega
  rw [List.getLastI_eq_getLast?, List.getLast?_eq_getLast l h,
      List.getLast_eq_getElem, List.getD_eq_getElem _ 0 hlen]

theorem mem_le_getD_last {l : List ℚ} (hs : l.Sorted (· ≤ ·)) {x : ℚ}
    (hx : x ∈ l) : x ≤ l.getD (l.length - 1) 0 := by
  obtain ⟨k, hk, rfl⟩ := List.getElem_of_mem hx
  have hk2 : l.length - 1 < l.length := by omega
  rw [List.getD_eq_getElem _ 0 hk2]
  rcases Nat.lt_or_ge k (l.length - 1) with hlt | hge
  · have := List.Sorted.rel_get_of_lt hs
      (show (⟨k, hk⟩ : Fin l.length) < ⟨l.length - 1, hk2⟩ from hlt)
    simpa using this
  · have hkeq : k = l.length - 1 := by omega
    subst hkeq
    exact le_rfl

theorem getD_head_le_mem {l : List ℚ} (hs : l.Sorted (· ≤ ·)) {x : ℚ}
    (hx : x ∈ l) : l.getD 0 0 ≤ x := by
  obtain ⟨k, hk, rfl⟩ := List.getElem_of_mem hx
  have hk0 : 0 < l.length := by omega
  rw [List.getD_eq_getElem _ 0 hk0]
  rcases Nat.eq_zero_or_pos k with rfl | hpos
  · exact le_rfl
  · have := List.Sorted.rel_get_of_lt hs
      (show (⟨0, hk0⟩ : Fin l.length) < ⟨k, hk⟩ from hpos)
    simpa using this

theorem getD_last_mem_drop (l : List ℚ) (i : Nat) (hi : i < l.length) :
    l.getD (l.length - 1) 0 ∈ l.drop i := by
  have hj : l.length - 1 - i < (l.drop i).length := by
    rw [List.length_drop]; omega
  have heq : (l.drop i)[l.length - 1 - i] = l.getD (l.length - 1) 0 := by
    rw [List.getElem_drop, List.getD_eq_getElem _ 0 (by omega)]
    simp only [show i + (l.length - 1 - i) = l.length - 1 from by omega]
  rw [← heq]
  exact List.getElem_mem _

theorem getD_head_mem_take (l : List ℚ) (k : Nat) (hl : l ≠ []) (hk : 0 < k) :
    l.getD 0 0 ∈ l.take k := by
  have hlen : 0 < l.length := List.length_pos.2 hl
  have hj : 0 < (l.take k).length := by
    rw [List.length_take]; omega
  have heq : (l.take k)[0] = l.getD 0 0 := by
    rw [List.getElem_take, List.getD_eq_getElem _ 0 hlen]
  rw [← heq]
  exact List.getElem_mem _

/-- The tail of the `get_E5_ss_4D_var` loop (every position after the
first file) computes exactly the spec's stitched contributions: middle
files whole, the final file through `timi[1]`. -/
theorem var4Loop_tail_eq (timi levi lati loni : Nat × Nat)
    (hlon : loni.1 < loni.2) (files : List E5File4D) :
    ∀ (c n : Nat) (acc v : Arr4),
      1 ≤ c → c + files.length = n →
      var4Loop timi levi lati loni files c n (some acc) = .ok (some v) →
      v = acc ++ specStitchRest timi levi lati loni false files := by
  induction files with
  | nil =>
    intro c n acc v hc hn h
    simp only [var4Loop, Except.ok.injEq, Option.some.injEq] at h
    rw [← h]
    simp [specStitchRest]
  | cons f rest ih =>
    intro c n acc v hc hn h
    simp only [var4Loop] at h
    rw [if_neg (by omega)] at h
    by_cases hlast : c = n - 1
    · have hrest : rest = [] := by
        cases rest with
        | nil => rfl
        | cons g rest' =>
          exfalso
          simp only [List.length_cons] at hn
          omega
      subst hrest
      rw [if_pos hlast] at h
      simp only [read4, if_pos hlon, var4Loop, Except.ok.injEq,
        Option.some.injEq] at h
      rw [← h]
      simp [specStitchRest]
    · have hrestne : rest ≠ [] := by
        intro hre
        subst hre
        simp only [List.length_cons, List.length_nil] at hn
        omega
      rw [if_neg hlast] at h
      simp only [read4, if_pos hlon] at h
      split at h
      · exact absurd h (by simp)
      · have hrec := ih (c + 1) n (acc ++ read4t false levi lati loni f.var) v
          (by omega) (by simp only [List.length_cons] at hn; omega) h
        rw [hrec, List.append_assoc]
        congr 1
        cases rest with
        | nil => exact absurd rfl hrestne
        | cons g rest' => rfl

/-- For a query over at least one file, `get_E5_ss_4D_var` returns the
first file's tail read from `timi[0]` followed by the spec's stitched
contributions of the remaining files. -/
theorem get_E5_ss_4D_var_stitch (files : List E5File4D)
    (timi levi lati loni : Nat × Nat)
    (hlen : 1 ≤ files.length) (hlon : loni.1 < loni.2) (v : Arr4)
    (h : get_E5_ss_4D_var files timi levi lati loni = .ok v) :
    v = read4t false levi lati loni ((files.headI).var.drop timi.1)
        ++ specStitchRest timi levi lati loni false files.tail := by
  cases files with
  | nil => simp at hlen
  | cons f rest =>
    have hread : ∀ x : List Arr3, read4 x levi lati loni
        = some (read4t false levi lati loni x) := fun x => by
      simp [read4, if_pos hlon]
    have hstep : get_E5_ss_4D_var (f :: rest) timi levi lati loni
        = match var4Loop timi levi lati loni rest (0 + 1) (f :: rest).length
            (some (read4t false levi lati loni (f.var.drop timi.1))) with
          | .error e => .error e
          | .ok none => .error "NameError: name varss is not defined"
          | .ok (some v) => .ok v := by
      unfold get_E5_ss_4D_var
      rw [show var4Loop timi levi lati loni (f :: rest) 0 (f :: rest).length none
          = var4Loop timi levi lati loni rest (0 + 1) (f :: rest).length
              (read4 (f.var.drop timi.1) levi lati loni) from rfl]
      rw [hread]
    rw [hstep] at h
    cases hres : var4Loop timi levi lati loni rest (0 + 1) (f :: rest).length
        (some (read4t false levi lati loni (f.var.drop timi.1))) with
    | error e =>
      rw [hres] at h
      simp at h
    | ok o =>
      rw [hres] at h
      cases o with
      | none => simp at h
      | some w =>
        simp only [Except.ok.injEq] at h
        subst h
        exact var4Loop_tail_eq timi levi lati loni hlon rest (0 + 1)
          (f :: rest).length _ w (by omega) (by simp; omega) hres

/-- `get_E5_ss_4D_var` on exactly two files: the first file's read from
`timi[0]` to its end, concatenated along the time axis with the second
file's read from 0 through `timi[1]`. -/
theorem var4_two_files (f0 f1 : E5File4D) (timi levi lati loni : Nat × Nat)
    (hlon : loni.1 < loni.2) :
    get_E5_ss_4D_var [f0, f1] timi levi lati loni
      = .ok (read4t false levi lati loni (f0.var.drop timi.1)
             ++ read4t false levi lati loni (f1.var.take (timi.2 + 1))) := by
  have hread : ∀ x : List Arr3, read4 x levi lati loni
      = some (read4t false levi lati loni x) := fun x => by
    simp [read4, if_pos hlon]
  unfold get_E5_ss_4D_var
  rw [show var4Loop timi levi lati loni [f0, f1] 0 ([f0, f1] : List E5File4D).length none
      = var4Loop timi levi lati loni [f1] (0 + 1) 2
          (read4 (f0.var.drop timi.1) levi lati loni) from rfl]
  rw [hread]
  rw [show var4Loop timi levi lati loni [f1] (0 + 1) 2
        (some (read4t false levi lati loni (f0.var.drop timi.1)))
      = (match some (read4t false levi lati loni (f0.var.drop timi.1)),
               read4 (f1.var.take (timi.2 + 1)) levi lati loni with
         | some v, some v3 =>
           var4Loop timi levi lati loni [] (0 + 1 + 1) 2 (some (v ++ v3))
         | _, _ =>
           (.error "NameError: undefined hyperslab in time concatenation"
             : Except String (Option Arr4))) from rfl]
  rw [hread]
  rfl

/-- The locator loop of `get_E5_ss_4D_fiti` on a two-file archive whose
first file holds the lower time and whose second file holds the upper
time: the first file contributes its tail from the nearest index of
`time1`, the second its head through the nearest index of `time2`. -/
theorem fiti4_two_files (f0 f1 : E5File4D) (time1 time2 : ℚ)
    (h1 : f0.t0 ≤ time1) (h2 : time1 ≤ f0.tN) (h3 : f0.tN < f1.t0)
    (h4 : f1.t0 ≤ time2) (h5 : time2 ≤ f1.tN) :
    get_E5_ss_4D_fiti [f0, f1] time1 time2
      = .ok ([f0, f1], (nearestIdx f0.times time1, nearestIdx f1.times time2),
             f0.times.drop (nearestIdx f0.times time1)
               ++ f1.times.take (nearestIdx f1.times time2 + 1)) := by
  have hn2 : ¬ time2 ≤ f0.tN := not_le.2 (lt_of_lt_of_le h3 h4)
  have hn1 : ¬ f1.t0 ≤ time1 := not_le.2 (lt_of_le_of_lt h2 h3)
  unfold get_E5_ss_4D_fiti
  rw [if_neg (by simp)]
  rw [fiti4Loop]
  rw [if_neg (fun hc => hn2 hc.2.2), if_pos ⟨⟨h1, h2⟩, fun hc => hn2 hc.2⟩]
  rw [fiti4Loop]
  rw [if_neg (fun hc => hn1 hc.1.1), if_neg (fun hc => hn1 hc.1.1),
      if_pos ⟨h4, h5⟩]
  rfl

/-- C3: a multi-file time-range query concatenates per-file hyperslabs
along the time axis in file order — the first file from its resolved start
index, middle files whole, the last file through its resolved end index —
and a range spanning the boundary between two adjacent files yields a time
axis whose length is the sum of the two contributed counts, with each
boundary timestamp appearing exactly once (none duplicated, none
missing). -/
theorem C3_multi_file_time_concatenation :
    (∀ (files : List E5File4D) (timi levi lati loni : Nat × Nat) (v : Arr4),
      1 ≤ files.length → loni.1 < loni.2 →
      get_E5_ss_4D_var files timi levi lati loni = .ok v →
      v = read4t false levi lati loni ((files.headI).var.drop timi.1)
          ++ specStitchRest timi levi lati loni false files.tail)
    ∧ (∀ (f0 f1 : E5File4D) (time1 time2 : ℚ) (levi lati loni : Nat × Nat),
      f0.t0 ≤ time1 → time1 ≤ f0.tN → f0.tN < f1.t0 →
      f1.t0 ≤ time2 → time2 ≤ f1.tN →
      f0.times ≠ [] → f1.times ≠ [] →
      f0.times.Sorted (· < ·) → f1.times.Sorted (· < ·) →
      f0.var.length = f0.times.length → f1.var.length = f1.times.length →
      loni.1 < loni.2 →
      get_E5_ss_4D_fiti [f0, f1] time1 time2
        = .ok ([f0, f1], (nearestIdx f0.times time1, nearestIdx f1.times time2),
               f0.times.drop (nearestIdx f0.times time1)
                 ++ f1.times.take (nearestIdx f1.times time2 + 1))
      ∧ get_E5_ss_4D_var [f0, f1]
          (nearestIdx f0.times time1, nearestIdx f1.times time2) levi lati loni
        = .ok (read4t false levi lati loni
                 (f0.var.drop (nearestIdx f0.times time1))
               ++ read4t false levi lati loni
                 (f1.var.take (nearestIdx f1.times time2 + 1)))
      ∧ (read4t false levi lati loni (f0.var.drop (nearestIdx f0.times time1))
           ++ read4t false levi lati loni
             (f1.var.take (nearestIdx f1.times time2 + 1))).length
          = (f0.times.length - nearestIdx f0.times time1)
            + (nearestIdx f1.times time2 + 1)
      ∧ (f0.times.drop (nearestIdx f0.times time1)
           ++ f1.times.take (nearestIdx f1.times time2 + 1)).length
          = (f0.times.length - nearestIdx f0.times time1)
            + (nearestIdx f1.times time2 + 1)
      ∧ (f0.times.drop (nearestIdx f0.times time1)
           ++ f1.times.take (nearestIdx f1.times time2 + 1)).count f0.tN = 1
      ∧ (f0.times.drop (nearestIdx f0.times time1)
           ++ f1.times.take (nearestIdx f1.times time2 + 1)).count f1.t0 = 1) := by
  constructor
  · intro files timi levi lati loni v hlen hlon h
    exact get_E5_ss_4D_var_stitch files timi levi lati loni hlen hlon v h
  · intro f0 f1 time1 time2 levi lati loni h1 h2 h3 h4 h5 hne0 hne1 hs0 hs1
      hv0 hv1 hlon
    have hi1 : nearestIdx f0.times time1 < f0.times.length :=
      nearestIdx_lt_length f0.times time1 hne0
    have hi2 : nearestIdx f1.times time2 < f1.times.length :=
      nearestIdx_lt_length f1.times time2 hne1
    have hfiti := fiti4_two_files f0 f1 time1 time2 h1 h2 h3 h4 h5
    have hvar : get_E5_ss_4D_var [f0, f1]
        (nearestIdx f0.times time1, nearestIdx f1.times time2) levi lati loni
      = .ok (read4t false levi lati loni
               (f0.var.drop (nearestIdx f0.times time1))
             ++ read4t false levi lati loni
               (f1.var.take (nearestIdx f1.times time2 + 1))) :=
      var4_two_files f0 f1
        (nearestIdx f0.times time1, nearestIdx f1.times time2) levi lati loni hlon
    -- bounds on every element of each file relative to the boundary stamps
    have hle0 : ∀ x ∈ f0.times, x ≤ f0.tN := by
      intro x hx
      rw [E5File4D.tN, getLastI_eq_getD f0.times hne0]
      exact mem_le_getD_last (hs0.le_of_lt) hx
    have hge1 : ∀ x ∈ f1.times, f1.t0 ≤ x := by
      intro x hx
      rw [E5File4D.t0, headI_eq_getD f1.times hne1]
      exact getD_head_le_mem (hs1.le_of_lt) hx
    refine ⟨hfiti, hvar, ?_, ?_, ?_, ?_⟩
    · simp only [List.length_append, read4t, List.length_map, List.length_drop,
        List.length_take]
      omega
    · simp only [List.length_append, List.length_drop, List.length_take]
      omega
    · rw [List.count_append]
      have hmem : f0.tN ∈ f0.times.drop (nearestIdx f0.times time1) := by
        rw [E5File4D.tN, getLastI_eq_getD f0.times hne0]
        exact getD_last_mem_drop f0.times _ hi1
      have hnd : (f0.times.drop (nearestIdx f0.times time1)).Nodup :=
        hs0.nodup.sublist (List.drop_sublist _ _)
      have hc1 : (f0.times.drop (nearestIdx f0.times time1)).count f0.tN = 1 :=
        List.count_eq_one_of_mem hnd hmem
      have hc0 : (f1.times.take (nearestIdx f1.times time2 + 1)).count f0.tN = 0 := by
        rw [List.count_eq_zero]
        intro hc
        have := hge1 f0.tN (List.mem_of_mem_take hc)
        linarith
      omega
    · rw [List.count_append]
      have hc0 : (f0.times.drop (nearestIdx f0.times time1)).count f1.t0 = 0 := by
        rw [List.count_eq_zero]
        intro hc
        have := hle0 f1.t0 (List.mem_of_mem_drop hc)
        linarith
      have hmem : f1.t0 ∈ f1.times.take (nearestIdx f1.times time2 + 1) := by
        rw [E5File4D.t0, headI_eq_getD f1.times hne1]
        exact getD_head_mem_take f1.times _ hne1 (by omega)
      have hnd : (f1.times.take (nearestIdx f1.times time2 + 1)).Nodup :=
        hs1.nodup.sublist (List.take_sublist _ _)
      have hc1 : (f1.times.take (nearestIdx f1.times time2 + 1)).count f1.t0 = 1 :=
        List.count_eq_one_of_mem hnd hmem
      omega

/-- Witness for C3: two adjacent files with times `[0, 1]` and `[2, 3]`,
queried from exactly the last timestamp of the first (1) to exactly the
first of the second (2): one slab from each file, time axis `[1, 2]`,
each boundary stamp appearing once. -/
theorem C3_multi_file_time_concatenation_witness :
    get_E5_ss_4D_fiti
        [⟨[0, 1], [1000], [0], [0, 10], [[[[1, 2]]], [[[3, 4]]]]⟩,
         ⟨[2, 3], [1000], [0], [0, 10], [[[[5, 6]]], [[[7, 8]]]]⟩] 1 2
      = .ok ([⟨[0, 1], [1000], [0], [0, 10], [[[[1, 2]]], [[[3, 4]]]]⟩,
              ⟨[2, 3], [1000], [0], [0, 10], [[[[5, 6]]], [[[7, 8]]]]⟩],
             (1, 0), [1, 2])
    ∧ get_E5_ss_4D_var
        [⟨[0, 1], [1000], [0], [0, 10], [[[[1, 2]]], [[[3, 4]]]]⟩,
         ⟨[2, 3], [1000], [0], [0, 10], [[[[5, 6]]], [[[7, 8]]]]⟩]
        (1, 0) (0, 1) (0, 0) (0, 1)
      = .ok [[[[3, 4]]], [[[5, 6]]]]
    ∧ ([(1 : ℚ), 2].count 1 = 1 ∧ [(1 : ℚ), 2].count 2 = 1) := by
  have h := (C3_multi_file_time_concatenation).2
    ⟨[0, 1], [1000], [0], [0, 10], [[[[1, 2]]], [[[3, 4]]]]⟩
    ⟨[2, 3], [1000], [0], [0, 10], [[[[5, 6]]], [[[7, 8]]]]⟩
    1 2 (0, 1) (0, 0) (0, 1)
    (by norm_num [E5File4D.t0]) (by norm_num [E5File4D.tN, List.getLastI])
    (by norm_num [E5File4D.t0, E5File4D.tN, List.getLastI])
    (by norm_num [E5File4D.t0]) (by norm_num [E5File4D.tN, List.getLastI])
    (by simp) (by simp)
    (by norm_num [List.sorted_cons]) (by norm_num [List.sorted_cons])
    (by simp) (by simp) (by norm_num)
  have hidx1 : nearestIdx ([0, 1] : List ℚ) 1 = 1 := by
    norm_num [nearestIdx, aDist, List.getD]
  have hidx2 : nearestIdx ([2, 3] : List ℚ) 2 = 0 := by
    norm_num [nearestIdx, aDist, List.getD]
  obtain ⟨ha, hb, _, _, hc, hd⟩ := h
  rw [show (⟨[0, 1], [1000], [0], [0, 10], [[[[1, 2]]], [[[3, 4]]]]⟩
      : E5File4D).times = [0, 1] from rfl, hidx1] at ha hb
  rw [show (⟨[2, 3], [1000], [0], [0, 10], [[[[5, 6]]], [[[7, 8]]]]⟩
      : E5File4D).times = [2, 3] from rfl, hidx2] at ha hb
  refine ⟨by simpa using ha, ?_, by norm_num⟩
  exact hb.trans (by rfl)

/-! ### Claim C7 -/

theorem getD_take_list {α : Type} (l : List α) (d : α) (k j : Nat) :
    (l.take k).getD j d = if j < k then l.getD j d else d := by
  rcases Nat.lt_or_ge j k with h | h
  · rw [if_pos h]
    rcases Nat.lt_or_ge j l.length with h2 | h2
    · rw [List.getD_eq_getElem _ _ (by simp [List.length_take]; omega),
          List.getElem_take, List.getD_eq_getElem _ _ h2]
    · rw [List.getD_eq_default _ _ (by simp [List.length_take]; omega),
          List.getD_eq_default _ _ h2]
  · rw [if_neg (by omega), List.getD_eq_default _ _ (by simp [List.length_take]; omega)]

theorem getD_drop_list {α : Type} (l : List α) (d : α) (a j : Nat) :
    (l.drop a).getD j d = l.getD (a + j) d := by
  rcases Nat.lt_or_ge (a + j) l.length with h | h
  · rw [List.getD_eq_getElem _ _ (by simp [List.length_drop]; omega),
        List.getElem_drop, List.getD_eq_getElem _ _ h]
  · rw [List.getD_eq_default _ _ (by simp [List.length_drop]; omega),
        List.getD_eq_default _ _ h]

theorem getD_map_rows (f : List ℚ → List ℚ) (hf : f [] = []) (l : Grid2) (j : Nat) :
    (l.map f).getD j [] = f (l.getD j []) := by
  rcases Nat.lt_or_ge j l.length with h | h
  · rw [List.getD_eq_getElem _ _ (by simpa using h), List.getElem_map,
        List.getD_eq_getElem _ _ h]
  · rw [List.getD_eq_default _ _ (by simpa using h), List.getD_eq_default _ _ h, hf]

/-- Pointwise combination distributes over rowwise (longitude-axis)
concatenation of two grids, provided the first parts pair up in shape. -/
theorem map2Grid_zip_append (op : ℚ → ℚ → ℚ) :
    ∀ (x1 x2 y1 y2 : Grid2),
      x1.length = x2.length → y1.length = y2.length →
      (∀ i, (x1.getD i []).length = (x2.getD i []).length) →
      map2Grid op (List.zipWith (fun r s => r ++ s) x1 y1)
          (List.zipWith (fun r s => r ++ s) x2 y2)
        = List.zipWith (fun r s => r ++ s) (map2Grid op x1 x2)
            (map2Grid op y1 y2) := by
  intro x1
  induction x1 with
  | nil =>
    intro x2 y1 y2 hx hy hrow
    cases x2 with
    | nil => simp [map2Grid]
    | cons r2 x2' => simp at hx
  | cons r1 x1' ih =>
    intro x2 y1 y2 hx hy hrow
    cases x2 with
    | nil => simp at hx
    | cons r2 x2' =>
      cases y1 with
      | nil =>
        cases y2 with
        | nil => simp [map2Grid]
        | cons s2 y2' => simp at hy
      | cons s1 y1' =>
        cases y2 with
        | nil => simp at hy
        | cons s2 y2' =>
          simp only [map2Grid, List.zipWith_cons_cons]
          congr 1
          · exact List.zipWith_append op r1 s1 r2 s2 (by simpa using hrow 0)
          · exact ih x2' y1' y2' (by simpa using hx) (by simpa using hy)
              (fun i => by simpa using hrow (i + 1))

/-- Elementwise difference distributes over longitude-axis concatenation
of two rank-3 arrays of pairwise-matching shapes. -/
theorem sub3_cat3lon :
    ∀ (X1 X2 Y1 Y2 : Arr3),
      X1.length = X2.length → Y1.length = Y2.length →
      (∀ i, (X1.getD i []).length = (X2.getD i []).length) →
      (∀ i, (Y1.getD i []).length = (Y2.getD i []).length) →
      (∀ i j, ((X1.getD i []).getD j []).length
          = ((X2.getD i []).getD j []).length) →
      cat3lon (sub3 X1 X2) (sub3 Y1 Y2) = sub3 (cat3lon X1 Y1) (cat3lon X2 Y2) := by
  intro X1
  induction X1 with
  | nil =>
    intro X2 Y1 Y2 hx hy hlat hlaty hrow
    cases X2 with
    | nil => simp [cat3lon, sub3]
    | cons g2 X2' => simp at hx
  | cons g1 X1' ih =>
    intro X2 Y1 Y2 hx hy hlat hlaty hrow
    cases X2 with
    | nil => simp at hx
    | cons g2 X2' =>
      cases Y1 with
      | nil =>
        cases Y2 with
        | nil => simp [cat3lon, sub3]
        | cons k2 Y2' => simp at hy
      | cons k1 Y1' =>
        cases Y2 with
        | nil => simp at hy
        | cons k2 Y2' =>
          simp only [cat3lon, sub3, List.zipWith_cons_cons]
          congr 1
          · exact (map2Grid_zip_append (fun p q => p - q) g1 g2 k1 k2
              (by simpa using hlat 0) (by simpa using hlaty 0)
              (fun j => by simpa using hrow 0 j)).symm
          · exact ih X2' Y1' Y2' (by simpa using hx) (by simpa using hy)
              (fun i => by simpa using hlat (i + 1))
              (fun i => by simpa using hlaty (i + 1))
              (fun i j => by simpa using hrow (i + 1) j)

/-- Per time-slab stack: the level-difference read equals the elementwise
difference of the two fixed-level reads, provided the two level slices of
every slab agree in latitude count and per-row longitude count. -/
theorem readDiff_readFix (levi lati loni : Nat × Nat) (ts : List Arr3)
    (hne : loni.1 ≠ loni.2)
    (hg : ∀ s ∈ ts, (s.getD levi.1 []).length = (s.getD levi.2 []).length)
    (hr : ∀ s ∈ ts, ∀ j, ((s.getD levi.1 []).getD j []).length
        = ((s.getD levi.2 []).getD j []).length) :
    ∃ a b, readFix levi.1 lati loni ts = some a
      ∧ readFix levi.2 lati loni ts = some b
      ∧ readDiff levi lati loni ts = some (sub3 a b)
      ∧ a.length = b.length := by
  rcases Nat.lt_or_ge loni.1 loni.2 with hlt | hge
  · refine ⟨ts.map (fun s => subgrid2N (s.getD levi.1 []) lati loni),
            ts.map (fun s => subgrid2N (s.getD levi.2 []) lati loni),
            ?_, ?_, ?_, by simp⟩
    · simp only [readFix]
      rw [if_pos hlt]
    · simp only [readFix]
      rw [if_pos hlt]
    · simp only [readDiff]
      rw [if_pos hlt]
  · have hgt : loni.2 < loni.1 := by omega
    have hnlt : ¬ loni.1 < loni.2 := by omega
    have hslabA : ∀ i,
        ((ts.map (fun s => subgrid2A (s.getD levi.1 []) lati loni)).getD i []).length
          = ((ts.map (fun s => subgrid2A (s.getD levi.2 []) lati loni)).getD i []).length := by
      intro i
      rcases Nat.lt_or_ge i ts.length with h | h
      · rw [List.getD_eq_getElem _ _ (by simpa using h),
            List.getD_eq_getElem _ _ (by simpa using h),
            List.getElem_map, List.getElem_map]
        simp only [subgrid2A, List.length_map, List.length_take, List.length_drop]
        rw [hg (ts[i]) (List.getElem_mem h)]
      · rw [List.getD_eq_default _ _ (by simpa using h),
            List.getD_eq_default _ _ (by simpa using h)]
    have hslabB : ∀ i,
        ((ts.map (fun s => subgrid2B (s.getD levi.1 []) lati loni)).getD i []).length
          = ((ts.map (fun s => subgrid2B (s.getD levi.2 []) lati loni)).getD i []).length := by
      intro i
      rcases Nat.lt_or_ge i ts.length with h | h
      · rw [List.getD_eq_getElem _ _ (by simpa using h),
            List.getD_eq_getElem _ _ (by simpa using h),
            List.getElem_map, List.getElem_map]
        simp only [subgrid2B, List.length_map, List.length_take, List.length_drop]
        rw [hg (ts[i]) (List.getElem_mem h)]
      · rw [List.getD_eq_default _ _ (by simpa using h),
            List.getD_eq_default _ _ (by simpa using h)]
    have hrowA : ∀ i j,
        (((ts.map (fun s => subgrid2A (s.getD levi.1 []) lati loni)).getD i []).getD j []).length
          = (((ts.map (fun s => subgrid2A (s.getD levi.2 []) lati loni)).getD i []).getD j []).length := by
      intro i j
      rcases Nat.lt_or_ge i ts.length with h | h
      · have e1 : (ts.map (fun s => subgrid2A (s.getD levi.1 []) lati loni)).getD i []
            = subgrid2A ((ts[i]).getD levi.1 []) lati loni := by
          rw [List.getD_eq_getElem _ _ (by simpa using h), List.getElem_map]
        have e2 : (ts.map (fun s => subgrid2A (s.getD levi.2 []) lati loni)).getD i []
            = subgrid2A ((ts[i]).getD levi.2 []) lati loni := by
          rw [List.getD_eq_getElem _ _ (by simpa using h), List.getElem_map]
        rw [e1, e2]
        simp only [subgrid2A]
        rw [getD_map_rows _ (by simp), getD_map_rows _ (by simp),
            getD_take_list, getD_take_list, getD_drop_list, getD_drop_list]
        split
        · simp only [List.length_drop]
          rw [hr (ts[i]) (List.getElem_mem h) (lati.1 + j)]
        · rfl
      · have e1 : (ts.map (fun s => subgrid2A (s.getD levi.1 []) lati loni)).getD i []
            = [] := List.getD_eq_default _ _ (by simpa using h)
        have e2 : (ts.map (fun s => subgrid2A (s.getD levi.2 []) lati loni)).getD i []
            = [] := List.getD_eq_default _ _ (by simpa using h)
        rw [e1, e2]
    refine ⟨cat3lon (ts.map (fun s => subgrid2A (s.getD levi.1 []) lati loni))
                    (ts.map (fun s => subgrid2B (s.getD levi.1 []) lati loni)),
            cat3lon (ts.map (fun s => subgrid2A (s.getD levi.2 []) lati loni))
                    (ts.map (fun s => subgrid2B (s.getD levi.2 []) lati loni)),
            ?_, ?_, ?_, by simp [cat3lon]⟩
    · simp only [readFix]
      rw [if_neg hnlt, if_pos hgt]
    · simp only [readFix]
      rw [if_neg hnlt, if_pos hgt]
    · simp only [readDiff]
      rw [if_neg hnlt, if_pos hgt]
      exact congrArg some (sub3_cat3lon _ _ _ _ (by simp) (by simp) hslabA hslabB hrowA)

/-- Elementwise difference distributes over time-axis concatenation when
the first parts have equal time extents. -/
theorem sub3_append (u a w b : Arr3) (h : u.length = w.length) :
    sub3 (u ++ a) (w ++ b) = sub3 u w ++ sub3 a b :=
  List.zipWith_append _ u a w b h

/-- Loop invariant for the level-difference stitching: whenever the
difference loop and the two fixed-level loops all complete with a value,
the difference loop's value is the elementwise difference of the other
two, file by file. -/
theorem loop3_diff (levi lati loni : Nat × Nat) (hne : loni.1 ≠ loni.2) :
    ∀ (files : List E5File4D) (timi : Nat × Nat) (c n : Nat)
      (accD accA accB : Option Arr3),
      (∀ f ∈ files, ∀ s ∈ f.var,
        (s.getD levi.1 []).length = (s.getD levi.2 []).length) →
      (∀ f ∈ files, ∀ s ∈ f.var, ∀ j,
        ((s.getD levi.1 []).getD j []).length
          = ((s.getD levi.2 []).getD j []).length) →
      ((accD = none ∧ accA = none ∧ accB = none) ∨
        (∃ u w, accA = some u ∧ accB = some w ∧ accD = some (sub3 u w)
          ∧ u.length = w.length)) →
      ∀ vd va vb,
        loop3 (readDiff levi lati loni) timi files c n accD = .ok (some vd) →
        loop3 (readFix levi.1 lati loni) timi files c n accA = .ok (some va) →
        loop3 (readFix levi.2 lati loni) timi files c n accB = .ok (some vb) →
        vd = sub3 va vb := by
  intro files
  induction files with
  | nil =>
    intro timi c n accD accA accB hg hr hacc vd va vb hD hA hB
    simp only [loop3] at hD hA hB
    rcases hacc with ⟨hD0, hA0, hB0⟩ | ⟨u, w, hA0, hB0, hD0, _⟩
    · rw [hD0] at hD
      exact absurd hD (by simp)
    · rw [hD0] at hD
      rw [hA0] at hA
      rw [hB0] at hB
      have : u = va := by simpa using hA
      have : w = vb := by simpa [this] using hB
      simp_all
  | cons f rest ih =>
    intro timi c n accD accA accB hg hr hacc vd va vb hD hA hB
    have hgf : ∀ s ∈ f.var, (s.getD levi.1 []).length = (s.getD levi.2 []).length :=
      hg f (List.mem_cons_self f rest)
    have hrf : ∀ s ∈ f.var, ∀ j, ((s.getD levi.1 []).getD j []).length
        = ((s.getD levi.2 []).getD j []).length :=
      hr f (List.mem_cons_self f rest)
    have hgr : ∀ g ∈ rest, ∀ s ∈ g.var,
        (s.getD levi.1 []).length = (s.getD levi.2 []).length :=
      fun g hgm => hg g (List.mem_cons_of_mem f hgm)
    have hrr : ∀ g ∈ rest, ∀ s ∈ g.var, ∀ j,
        ((s.getD levi.1 []).getD j []).length
          = ((s.getD levi.2 []).getD j []).length :=
      fun g hgm => hr g (List.mem_cons_of_mem f hgm)
    simp only [loop3] at hD hA hB
    by_cases hc0 : c = 0
    · rw [if_pos hc0] at hD hA hB
      obtain ⟨a, b, hFa, hFb, hFd, hab⟩ :=
        readDiff_readFix levi lati loni (f.var.drop timi.1) hne
          (fun s hs => hgf s (List.mem_of_mem_drop hs))
          (fun s hs => hrf s (List.mem_of_mem_drop hs))
      rw [hFd] at hD
      rw [hFa] at hA
      rw [hFb] at hB
      exact ih timi (c + 1) n _ _ _ hgr hrr
        (Or.inr ⟨a, b, rfl, rfl, rfl, hab⟩) vd va vb hD hA hB
    · rw [if_neg hc0] at hD hA hB
      rcases hacc with ⟨hD0, hA0, hB0⟩ | ⟨u, w, hA0, hB0, hD0, huw⟩
      · subst hD0
        by_cases hcn : c = n - 1
        · rw [if_pos hcn] at hD
          rcases hrd : readDiff levi lati loni (f.var.take (timi.2 + 1)) with _ | x <;>
            rw [hrd] at hD <;> exact Except.noConfusion hD
        · rw [if_neg hcn] at hD
          rcases hrd : readDiff levi lati loni f.var with _ | x <;>
            rw [hrd] at hD <;> exact Except.noConfusion hD
      · subst hA0
        subst hB0
        subst hD0
        by_cases hcn : c = n - 1
        · rw [if_pos hcn] at hD hA hB
          obtain ⟨a, b, hFa, hFb, hFd, hab⟩ :=
            readDiff_readFix levi lati loni (f.var.take (timi.2 + 1)) hne
              (fun s hs => hgf s (List.mem_of_mem_take hs))
              (fun s hs => hrf s (List.mem_of_mem_take hs))
          rw [hFd] at hD
          rw [hFa] at hA
          rw [hFb] at hB
          have hD2 : loop3 (readDiff levi lati loni) timi rest (c + 1) n
              (some (sub3 u w ++ sub3 a b)) = .ok (some vd) := hD
          have hA2 : loop3 (readFix levi.1 lati loni) timi rest (c + 1) n
              (some (u ++ a)) = .ok (some va) := hA
          have hB2 : loop3 (readFix levi.2 lati loni) timi rest (c + 1) n
              (some (w ++ b)) = .ok (some vb) := hB
          rw [← sub3_append u a w b huw] at hD2
          exact ih timi (c + 1) n _ _ _ hgr hrr
            (Or.inr ⟨u ++ a, w ++ b, rfl, rfl, rfl, by simp [huw, hab]⟩) vd va vb hD2 hA2 hB2
        · rw [if_neg hcn] at hD hA hB
          obtain ⟨a, b, hFa, hFb, hFd, hab⟩ :=
            readDiff_readFix levi lati loni f.var hne hgf hrf
          rw [hFd] at hD
          rw [hFa] at hA
          rw [hFb] at hB
          have hD2 : (if hasUnitAxis3 (sub3 u w ++ sub3 a b) then
              (.error "ValueError: np.squeeze dropped an axis and the next concatenate fails" :
                Except String (Option Arr3))
              else loop3 (readDiff levi lati loni) timi rest (c + 1) n
                (some (sub3 u w ++ sub3 a b))) = .ok (some vd) := hD
          have hA2 : (if hasUnitAxis3 (u ++ a) then
              (.error "ValueError: np.squeeze dropped an axis and the next concatenate fails" :
                Except String (Option Arr3))
              else loop3 (readFix levi.1 lati loni) timi rest (c + 1) n
                (some (u ++ a))) = .ok (some va) := hA
          have hB2 : (if hasUnitAxis3 (w ++ b) then
              (.error "ValueError: np.squeeze dropped an axis and the next concatenate fails" :
                Except String (Option Arr3))
              else loop3 (readFix levi.2 lati loni) timi rest (c + 1) n
                (some (w ++ b))) = .ok (some vb) := hB
          split at hD2
          · exact Except.noConfusion hD2
          split at hA2
          · exact Except.noConfusion hA2
          split at hB2
          · exact Except.noConfusion hB2
          rw [← sub3_append u a w b huw] at hD2
          exact ih timi (c + 1) n _ _ _ hgr hrr
            (Or.inr ⟨u ++ a, w ++ b, rfl, rfl, rfl, by simp [huw, hab]⟩) vd va vb hD2 hA2 hB2

/-- C7: in level-difference extraction mode (`get_E5_ss_4D_levdiffvar`
with resolved level indices `levi.1` and `levi.2`), whenever the two level
slices of every stored time slab agree in shape (as they do for a
rectangular archive) and the extraction and the two fixed-level raw reads
all succeed, the returned array equals the elementwise difference, at
every time/lat/lon point, of the raw read at level `levi.1` minus the raw
read at level `levi.2`, the reads being stitched across files and the
longitude seam by exactly the same loop. -/
theorem C7_level_difference_mode (files : List E5File4D)
    (timi levi lati loni : Nat × Nat)
    (hne : loni.1 ≠ loni.2)
    (hg : ∀ f ∈ files, ∀ s ∈ f.var,
      (s.getD levi.1 []).length = (s.getD levi.2 []).length)
    (hr : ∀ f ∈ files, ∀ s ∈ f.var, ∀ j,
      ((s.getD levi.1 []).getD j []).length = ((s.getD levi.2 []).getD j []).length)
    (v a b : Arr3)
    (hd : get_E5_ss_4D_levdiffvar files timi levi lati loni = .ok v)
    (ha : rawFixRead files timi levi.1 lati loni = .ok a)
    (hb : rawFixRead files timi levi.2 lati loni = .ok b) :
    v = sub3 a b := by
  unfold get_E5_ss_4D_levdiffvar at hd
  unfold rawFixRead at ha hb
  rcases hD : loop3 (readDiff levi lati loni) timi files 0 files.length none with e | o
  · rw [hD] at hd
    exact Except.noConfusion hd
  · rw [hD] at hd
    cases o with
    | none => exact Except.noConfusion hd
    | some vd =>
      rcases hA : loop3 (readFix levi.1 lati loni) timi files 0 files.length none with e | oa
      · rw [hA] at ha
        exact Except.noConfusion ha
      · rw [hA] at ha
        cases oa with
        | none => exact Except.noConfusion ha
        | some va =>
          rcases hB : loop3 (readFix levi.2 lati loni) timi files 0 files.length none with e | ob
          · rw [hB] at hb
            exact Except.noConfusion hb
          · rw [hB] at hb
            cases ob with
            | none => exact Except.noConfusion hb
            | some vb =>
              have hv : vd = v := Except.ok.inj hd
              have hva : va = a := Except.ok.inj ha
              have hvb : vb = b := Except.ok.inj hb
              rw [← hv, ← hva, ← hvb]
              exact loop3_diff levi lati loni hne files timi 0 files.length
                none none none hg hr (Or.inl ⟨rfl, rfl, rfl⟩) vd va vb hD hA hB

/-- Witness for C7: one file holding one time slab with two levels over a
1 × 2 horizontal grid; the level-difference extraction returns the
elementwise difference of the two single-level raw reads. -/
theorem C7_level_difference_mode_witness :
    get_E5_ss_4D_levdiffvar
        [⟨[0], [1000, 850], [0], [0, 10], [[[[1, 2]], [[10, 20]]]]⟩]
        (0, 0) (0, 1) (0, 0) (0, 1) = .ok (sub3 [[[1, 2]]] [[[10, 20]]])
    ∧ rawFixRead [⟨[0], [1000, 850], [0], [0, 10], [[[[1, 2]], [[10, 20]]]]⟩]
        (0, 0) 0 (0, 0) (0, 1) = .ok [[[1, 2]]]
    ∧ rawFixRead [⟨[0], [1000, 850], [0], [0, 10], [[[[1, 2]], [[10, 20]]]]⟩]
        (0, 0) 1 (0, 0) (0, 1) = .ok [[[10, 20]]]
    ∧ sub3 [[[1, 2]]] [[[10, 20]]] = sub3 [[[1, 2]]] [[[10, 20]]] := by
  have hd : get_E5_ss_4D_levdiffvar
      [⟨[0], [1000, 850], [0], [0, 10], [[[[1, 2]], [[10, 20]]]]⟩]
      (0, 0) (0, 1) (0, 0) (0, 1) = .ok (sub3 [[[1, 2]]] [[[10, 20]]]) := rfl
  have ha : rawFixRead [⟨[0], [1000, 850], [0], [0, 10], [[[[1, 2]], [[10, 20]]]]⟩]
      (0, 0) 0 (0, 0) (0, 1) = .ok [[[1, 2]]] := rfl
  have hb : rawFixRead [⟨[0], [1000, 850], [0], [0, 10], [[[[1, 2]], [[10, 20]]]]⟩]
      (0, 0) 1 (0, 0) (0, 1) = .ok [[[10, 20]]] := rfl
  refine ⟨hd, ha, hb, ?_⟩
  exact C7_level_difference_mode
    [⟨[0], [1000, 850], [0], [0, 10], [[[[1, 2]], [[10, 20]]]]⟩]
    (0, 0) (0, 1) (0, 0) (0, 1) (by decide)
    (by
      intro f hf s hs
      rw [List.mem_singleton.mp hf] at hs
      rw [show s = [[[(1 : ℚ), 2]], [[10, 20]]] from List.mem_singleton.mp hs]
      rfl)
    (by
      intro f hf s hs j
      rw [List.mem_singleton.mp hf] at hs
      rw [show s = [[[(1 : ℚ), 2]], [[10, 20]]] from List.mem_singleton.mp hs]
      cases j with
      | zero => rfl
      | succ j => simp [List.getD])
    (sub3 [[[1, 2]]] [[[10, 20]]]) [[[1, 2]]] [[[10, 20]]] hd ha hb

/-! ### Claim C8 -/


/-- C8: every call to `get_E5_ss_2D_var` whose file-handle list and
time-index list lengths form a combination other than one file with one
index, one file with two indices, or two files with two indices, raises a
`ValueError` (fail fast) and returns no data. -/
theorem C8_reader_fails_fast_on_unexpected_combination
    (fh : List E5File2D) (timi : List Nat) (loni lati : Nat × Nat)
    (times : List ℚ) (ctime : ℚ)
    (h1 : ¬(fh.length = 1 ∧ timi.length = 1))
    (h2 : ¬(fh.length = 1 ∧ timi.length = 2))
    (h3 : ¬(fh.length = 2 ∧ timi.length = 2)) :
    get_E5_ss_2D_var fh timi loni lati times ctime
      = .error "Something went wrong in selecting times" := by
  unfold get_E5_ss_2D_var
  rw [if_neg h1, if_neg h2, if_neg h3]

/-- Witness for C8: three files with one time index is none of the
expected combinations, and the reader raises. -/
theorem C8_reader_fails_fast_on_unexpected_combination_witness :
    get_E5_ss_2D_var [default, default, default] [0] (0, 1) (0, 1) [] 0
      = .error "Something went wrong in selecting times" :=
  C8_reader_fails_fast_on_unexpected_combination
    [default, default, default] [0] (0, 1) (0, 1) [] 0
    (by simp) (by simp) (by simp)

/-! ### Claim C10 -/

/-- C10: when `get_E5_ss_4D_var` is called with exactly one file, the
single file is handled by the first-file branch (`c == 0`) alone, which
slices `[timi[0]:, ...]`; the last-file branch (`c == len(files)-1` with
`c ≠ 0`) never runs, so the resolved upper time index `timi[1]` is never
applied and the returned array's time axis runs from `timi[0]` through the
file's final time index. -/
theorem C10_single_file_ignores_upper_time_index
    (f : E5File4D) (t0i t1i t1i' : Nat) (levi lati loni : Nat × Nat) :
    get_E5_ss_4D_var [f] (t0i, t1i) levi lati loni
      = get_E5_ss_4D_var [f] (t0i, t1i') levi lati loni
    ∧ (loni.1 < loni.2 →
        get_E5_ss_4D_var [f] (t0i, t1i) levi lati loni
          = .ok (read4t false levi lati loni (f.var.drop t0i)))
    ∧ (loni.1 < loni.2 →
        ∀ v, get_E5_ss_4D_var [f] (t0i, t1i) levi lati loni = .ok v →
          v.length = f.var.length - t0i) := by
  refine ⟨?_, ?_, ?_⟩
  · simp [get_E5_ss_4D_var, var4Loop]
  · intro hlon
    simp [get_E5_ss_4D_var, var4Loop, read4, if_pos hlon]
  · intro hlon v hv
    simp [get_E5_ss_4D_var, var4Loop, read4, if_pos hlon] at hv
    rw [← hv]
    simp [read4t]

/-- Witness for C10: a two-time-step file read with upper time index 0
still returns both time steps — the full tail from index `timi[0] = 0`. -/
theorem C10_single_file_ignores_upper_time_index_witness :
    get_E5_ss_4D_var [⟨[0, 1], [1000], [0], [0, 10], [[[[1, 2]]], [[[3, 4]]]]⟩]
        (0, 0) (0, 1) (0, 0) (0, 1)
      = .ok [[[[1, 2]]], [[[3, 4]]]] := by
  have h := (C10_single_file_ignores_upper_time_index
    ⟨[0, 1], [1000], [0], [0, 10], [[[[1, 2]]], [[[3, 4]]]]⟩
    0 0 99 (0, 1) (0, 0) (0, 1)).2.1 (by decide)
  rw [h]
  rfl

/-! ### Claim C4 -/

/-- C4 concerns the invariant that the array extent along each axis equals
the length of that axis's coordinate vector.  The code breaks it on the
level axis: `get_E5_ss_4D_var` slices levels as `levi[0]:levi[1]`
(exclusive upper bound, source line 364) while `get_E5_ss_4D_levels`
returns `lev[levi[0]:levi[1]+1]` (inclusive, source line 291).  On a file
with levels `[1000, 850]` and level bounds 1000–850 the resolved window is
`(0, 1)`: the level coordinate list has two entries but the returned
array's level extent is one. -/
theorem C4_level_extent_breaks_shape_invariant :
    (get_E5_ss_4D_levels ⟨[0], [1000, 850], [0], [0, 10], [[[[1, 2]], [[3, 4]]]]⟩
        1000 850).1 = (0, 1)
    ∧ ((get_E5_ss_4D_levels ⟨[0], [1000, 850], [0], [0, 10], [[[[1, 2]], [[3, 4]]]]⟩
        1000 850).2).length = 2
    ∧ get_E5_ss_4D_var [⟨[0], [1000, 850], [0], [0, 10], [[[[1, 2]], [[3, 4]]]]⟩]
        (0, 0) (0, 1) (0, 0) (0, 1) = .ok [[[[1, 2]]]]
    ∧ ([[[[1, 2]]]] : Arr4).headI.length = 1 := by
  refine ⟨?_, ?_, ?_, by rfl⟩
  · norm_num [get_E5_ss_4D_levels, nearestIdx, aDist, List.getD]
  · norm_num [get_E5_ss_4D_levels, nearestIdx, aDist, List.getD]
  · rfl

end ERA5
